import Mathlib

/-!
# Verification of the bot-excel Analysis → Cleaning pipeline

Shallow embedding of the core of the `bot-excel` repository:
the helper primitives (`src/utils/helpers.js`), the rule engine
(`src/engine/analyzer.js`) and the auto-fix engine (`Cleaner`).

JavaScript numbers are modelled as exact rationals (`ℚ`); JS strings as
Lean `String`; a JS cell value (`string | number | null/undefined`) as
the inductive `Value`.  Fallible operations that return `NaN`/`null`
in JS return `Option` here.
-/

namespace BotExcel

/-- A JS cell value: a string, a number, or `null`/`undefined`. -/
inductive Value where
  | str (s : String)
  | num (q : ℚ)
  | null
deriving DecidableEq, Repr

/-- JS truthiness of a cell value (`''`, `0`, `null` are falsy). -/
def Value.truthy : Value → Bool
  | .str s => s ≠ ""
  | .num q => q ≠ 0
  | .null => false

/-! ## Character classes (JS regex `\d`, `\s`, `\w`) -/

/-- JS regex `\d` (ASCII digits). -/
def isDigitC (c : Char) : Bool := c.isDigit

/-- JS regex `\s` (whitespace). -/
def isSpaceC (c : Char) : Bool := c.isWhitespace

/-- JS regex `\w` (word characters). -/
def isWordC (c : Char) : Bool := c.isAlphanum || c = '_'

/-! ## String helpers (over `List Char`) -/

/-- `str.trim()`: drop leading and trailing whitespace. -/
def trimL (l : List Char) : List Char :=
  ((l.dropWhile isSpaceC).reverse.dropWhile isSpaceC).reverse

/-- Helper for `replace(/\s+/g, ' ')`: the flag records whether we are
inside a whitespace run (whose first character already emitted `' '`). -/
def collapseWsAux : Bool → List Char → List Char
  | _, [] => []
  | inRun, c :: rest =>
    if isSpaceC c then
      if inRun then collapseWsAux true rest
      else ' ' :: collapseWsAux true rest
    else c :: collapseWsAux false rest

/-- `replace(/\s+/g, ' ')`: collapse every whitespace run to one space. -/
def collapseWs (l : List Char) : List Char := collapseWsAux false l

/-- `helpers.cleanString` on an actual string: `str.trim().replace(/\s+/g, ' ')`. -/
def cleanStringS (s : String) : String := ⟨collapseWs (trimL s.data)⟩

/-- `helpers.cleanString(value)`: non-strings are returned unchanged. -/
def cleanString : Value → Value
  | .str s => .str (cleanStringS s)
  | v => v

/-- `toLowerCase()` on a character (ASCII, as exercised by the repo's data). -/
def lowerL (l : List Char) : List Char := l.map Char.toLower

def lowerS (s : String) : String := ⟨lowerL s.data⟩

def upperS (s : String) : String := ⟨s.data.map Char.toUpper⟩

/-- `a.includes(b)`: substring containment. -/
def containsSub (hay needle : List Char) : Bool :=
  match hay with
  | [] => needle.isEmpty
  | _ :: t => needle.isPrefixOf hay || containsSub t needle

/-- Header keyword test: `header.toLowerCase().includes(kw)`. -/
def hasKw (h kw : String) : Bool := containsSub (lowerL h.data) kw.data

/-! ## Number parsing (`helpers.parseNumber`) -/

/-- Does this character pair match `[Rr][Pp]`? -/
def isRpPair (c1 c2 : Char) : Bool :=
  (c1 = 'R' || c1 = 'r') && (c2 = 'P' || c2 = 'p')

/-- `value.replace(/[Rr][Pp]\.?\s?/g, '')`: after a matched `Rp`,
an optional `.` then an optional whitespace are consumed as part of
the match; scanning resumes after the match (or one character later
when there is no match at the current position). -/
def stripRp : List Char → List Char
  | [] => []
  | [c] => [c]
  | c1 :: c2 :: rest =>
    if isRpPair c1 c2 then
      match rest with
      | '.' :: c3 :: r => if isSpaceC c3 then stripRp r else stripRp (c3 :: r)
      | ['.'] => []
      | c3 :: r => if isSpaceC c3 then stripRp r else stripRp (c3 :: r)
      | [] => []
    else
      c1 :: stripRp (c2 :: rest)

/-- `.replace(/[IDR\s]/g, '')`: the character class removes the
uppercase letters `I`, `D`, `R` and all whitespace. -/
def stripIDRWs (l : List Char) : List Char :=
  l.filter (fun c => !(c = 'I' || c = 'D' || c = 'R' || isSpaceC c))

/-- Digit list to natural number. -/
def digitsToNat (l : List Char) : ℕ :=
  l.foldl (fun a c => 10 * a + (c.toNat - '0'.toNat)) 0

/-- Tail of the Indonesian-format test after the leading 1–3 digits:
`(\.\d{3})*,\d+$` (each dot must be followed by exactly three digits,
enforced by the recursive call rejecting a fourth digit). -/
def indoTail : List Char → Bool
  | '.' :: a :: b :: c :: r =>
    isDigitC a && isDigitC b && isDigitC c && indoTail r
  | ',' :: r => !r.isEmpty && r.all isDigitC
  | _ => false

/-- Regex test `^\d{1,3}(\.\d{3})*,\d+$` (Indonesian format `1.234.567,89`). -/
def isIndoFormat (l : List Char) : Bool :=
  let ds := l.takeWhile isDigitC
  decide (1 ≤ ds.length) && decide (ds.length ≤ 3) && indoTail (l.dropWhile isDigitC)

/-- Tail of the US-format test: `(,\d{3})*\.\d+$`. -/
def usTail : List Char → Bool
  | ',' :: a :: b :: c :: r =>
    isDigitC a && isDigitC b && isDigitC c && usTail r
  | '.' :: r => !r.isEmpty && r.all isDigitC
  | _ => false

/-- Regex test `^\d{1,3}(,\d{3})*\.\d+$` (US format `1,234,567.89`). -/
def isUSFormat (l : List Char) : Bool :=
  let ds := l.takeWhile isDigitC
  decide (1 ≤ ds.length) && decide (ds.length ≤ 3) && usTail (l.dropWhile isDigitC)

/-- Regex test `^\d+,\d+$` (bare comma as decimal, `12,5`). -/
def isSimpleComma (l : List Char) : Bool :=
  let ds := l.takeWhile isDigitC
  !ds.isEmpty &&
    (match l.dropWhile isDigitC with
     | ',' :: r => !r.isEmpty && r.all isDigitC
     | _ => false)

/-- `replace(',', '.')` (non-global: first comma only). -/
def replaceFirstComma : List Char → List Char
  | [] => []
  | ',' :: r => '.' :: r
  | c :: r => c :: replaceFirstComma r

/-- Fraction digits to a rational in `[0,1)`. -/
def fracToRat (l : List Char) : ℚ :=
  (digitsToNat l : ℚ) / ((10 : ℚ) ^ l.length)

/-- JS `parseFloat` on a cleaned character list: optional leading
whitespace and sign, then the longest decimal-literal prefix
`digits [. digits] [e[±]digits]`; `none` models `NaN`.
(The `Infinity` literal, which never arises from tabular cell data,
is not modelled.) -/
def jsParseFloat (l0 : List Char) : Option ℚ :=
  let l1 := l0.dropWhile isSpaceC
  let (sgn, l2) : ℚ × List Char :=
    match l1 with
    | '-' :: r => (-1, r)
    | '+' :: r => (1, r)
    | r => (1, r)
  let ip := l2.takeWhile isDigitC
  let l3 := l2.dropWhile isDigitC
  let (fp, l4) : List Char × List Char :=
    match l3 with
    | '.' :: r => (r.takeWhile isDigitC, r.dropWhile isDigitC)
    | r => ([], r)
  if ip.isEmpty && fp.isEmpty then none
  else
    let base : ℚ := (digitsToNat ip : ℚ) + fracToRat fp
    let expo : ℤ :=
      match l4 with
      | 'e' :: '-' :: r => if (r.takeWhile isDigitC).isEmpty then 0
                           else -(digitsToNat (r.takeWhile isDigitC) : ℤ)
      | 'E' :: '-' :: r => if (r.takeWhile isDigitC).isEmpty then 0
                           else -(digitsToNat (r.takeWhile isDigitC) : ℤ)
      | 'e' :: '+' :: r => (digitsToNat (r.takeWhile isDigitC) : ℤ)
      | 'E' :: '+' :: r => (digitsToNat (r.takeWhile isDigitC) : ℤ)
      | 'e' :: r => (digitsToNat (r.takeWhile isDigitC) : ℤ)
      | 'E' :: r => (digitsToNat (r.takeWhile isDigitC) : ℤ)
      | _ => 0
    some (sgn * base * (10 : ℚ) ^ expo)

/-- `helpers.parseNumber`: strip currency symbols and whitespace, then
disambiguate the three locale formats, then `parseFloat`.
`none` models `NaN`. -/
def parseNumber : Value → Option ℚ
  | .num q => some q
  | .null => none
  | .str s =>
    let cleaned := trimL (stripIDRWs (stripRp s.data))
    let c2 :=
      if isIndoFormat cleaned then
        replaceFirstComma (cleaned.filter (· ≠ '.'))
      else if isUSFormat cleaned then
        cleaned.filter (· ≠ ',')
      else if isSimpleComma cleaned then
        replaceFirstComma cleaned
      else
        cleaned.filter (· ≠ ',')
    jsParseFloat c2

/-! ## JS arithmetic primitives -/

/-- `Math.floor` on a rational. -/
def jsFloor (q : ℚ) : ℤ := Int.fdiv q.num q.den

/-- `Math.round`: `⌊x + 1/2⌋`, which agrees with JS on every rational
(including the negative half-integers, where JS rounds towards `+∞`). -/
def jsRound (q : ℚ) : ℤ := jsFloor (q + 1 / 2)

/-- `Math.abs`. -/
def jsAbs (q : ℚ) : ℚ := if q < 0 then -q else q

/-- `Math.max` (on non-`NaN` arguments). -/
def jsMax (a b : ℚ) : ℚ := if a ≤ b then b else a

/-- `Math.min` (on non-`NaN` arguments). -/
def jsMin (a b : ℚ) : ℚ := if a ≤ b then a else b

/-! ## Number → string (JS `String(n)` / `toString`) -/

/-- Decimal digits of a natural number (with fuel; 40 digits supply
far more than the 17 significant digits a JS number can carry). -/
def natToChars : ℕ → ℕ → List Char
  | 0, _ => []
  | _, 0 => []
  | fuel + 1, n => natToChars fuel (n / 10) ++ [Char.ofNat ('0'.toNat + n % 10)]

def natRepr (n : ℕ) : String := if n = 0 then "0" else ⟨natToChars 40 n⟩

def intRepr (i : ℤ) : String :=
  if i < 0 then "-" ++ natRepr i.natAbs else natRepr i.natAbs

/-- Decimal expansion of a fraction in `[0,1)` (terminates within the
fuel for every value a JS float can take). -/
def fracChars : ℕ → ℚ → List Char
  | 0, _ => []
  | fuel + 1, x =>
    if x = 0 then []
    else
      let y := x * 10
      let d := jsFloor y
      Char.ofNat ('0'.toNat + d.toNat) :: fracChars fuel (y - d)

/-- JS `String(number)` for the exact rationals a JS float can hold. -/
def jsNumToString (q : ℚ) : String :=
  if q.den = 1 then intRepr q.num
  else
    let a := jsAbs q
    let ip := jsFloor a
    (if q < 0 then "-" else "") ++ natRepr ip.toNat ++ "." ++ ⟨fracChars 40 (a - ip)⟩

/-- JS `String(value)` on a cell value. -/
def jsToString : Value → String
  | .str s => s
  | .num q => jsNumToString q
  | .null => "null"

/-- JS `String(value)` when the cell may be `undefined` (absent key). -/
def jsToStringOpt : Option Value → String
  | some v => jsToString v
  | none => "undefined"

/-! ## `helpers.formatCurrency` -/

/-- Digit grouping of `Intl.NumberFormat('id-ID')` on an integer:
thousands separated by `.`. -/
def groupDots (l : List Char) : List Char :=
  let r := l.reverse
  let rec go : List Char → List Char
    | a :: b :: c :: d :: rest => a :: b :: c :: '.' :: go (d :: rest)
    | l => l
  (go r).reverse

def intlIdFormat (n : ℤ) : String :=
  (if n < 0 then "-" else "") ++ ⟨groupDots (natRepr n.natAbs).data⟩

/-- `helpers.formatCurrency(value)` (with the default currency symbol):
round the parsed number and render `Rp #.###`; an unparseable value is
returned unchanged. -/
def formatCurrency (v : Value) : Value :=
  let n? := match v with
            | .num q => some q
            | _ => parseNumber v
  match n? with
  | none => v
  | some q => .str ("Rp " ++ intlIdFormat (jsRound q))

/-! ## Rows and tables -/

/-- A data row: the JS object `{_rowIndex, [header]: value, ...}`,
modelled as its source-line index plus an association list of cells. -/
structure Row where
  rowIndex : ℕ
  cells : List (String × Value)
deriving DecidableEq, Repr

def lookupCell : List (String × Value) → String → Option Value
  | [], _ => none
  | (k, v) :: t, h => if k = h then some v else lookupCell t h

/-- `row[h]`: `none` models JS `undefined`. -/
def Row.get (r : Row) (h : String) : Option Value := lookupCell r.cells h

def setCell : List (String × Value) → String → Value → List (String × Value)
  | [], h, v => [(h, v)]
  | (k, w) :: t, h, v => if k = h then (k, v) :: t else (k, w) :: setCell t h v

/-- `row[h] = v` (in-place property write, key order preserved). -/
def Row.set (r : Row) (h : String) (v : Value) : Row :=
  ⟨r.rowIndex, setCell r.cells h v⟩

/-- Is the cell `'' `, `null` or `undefined`? (the emptiness test
`val === '' || val === null || val === undefined`). -/
def isEmptyCell : Option Value → Bool
  | none => true
  | some .null => true
  | some (.str s) => s = ""
  | some (.num _) => false

/-- JS truthiness of a possibly-absent cell. -/
def cellTruthy : Option Value → Bool
  | some v => v.truthy
  | none => false

/-- `row[h] || ''`. -/
def cellOrEmpty (o : Option Value) : Value :=
  match o with
  | some v => if v.truthy then v else .str ""
  | none => .str ""

/-- `parseNumber(row[h])` (`parseNumber(undefined)` is `NaN`). -/
def parseNumberOpt : Option Value → Option ℚ
  | some v => parseNumber v
  | none => none

/-! ## Dates (`helpers.parseDate` / `formatDate` / `isFutureDate`)

A JS `Date` constructed from calendar components is modelled by its
(proleptic Gregorian) year/month/day triple; `new Date(y, m, d)`
normalises out-of-range components, which is modelled by exact
calendar arithmetic (Gregorian civil-day conversion). -/

structure JsDate where
  year : ℤ
  month : ℤ   -- 1–12
  day : ℤ
deriving DecidableEq, Repr

def isLeap (y : ℤ) : Bool :=
  (Int.emod y 4 = 0 && Int.emod y 100 ≠ 0) || Int.emod y 400 = 0

def monthLen (y m : ℤ) : ℤ :=
  if m = 2 then (if isLeap y then 29 else 28)
  else if m = 4 || m = 6 || m = 9 || m = 11 then 30
  else 31

/-- Day number of a civil date (days since 1970-01-01, for `1 ≤ m ≤ 12`). -/
def daysFromCivil (y m d : ℤ) : ℤ :=
  let y1 := if m ≤ 2 then y - 1 else y
  let era := Int.fdiv y1 400
  let yoe := y1 - era * 400
  let mp := if 2 < m then m - 3 else m + 9
  let doy := Int.fdiv (153 * mp + 2) 5 + d - 1
  let doe := yoe * 365 + Int.fdiv yoe 4 - Int.fdiv yoe 100 + doy
  era * 146097 + doe - 719468

/-- Civil date of a day number (inverse of `daysFromCivil`). -/
def civilFromDays (z0 : ℤ) : JsDate :=
  let z := z0 + 719468
  let era := Int.fdiv z 146097
  let doe := z - era * 146097
  let yoe := Int.fdiv (doe - Int.fdiv doe 1460 + Int.fdiv doe 36524 - Int.fdiv doe 146096) 365
  let y := yoe + era * 400
  let doy := doe - (365 * yoe + Int.fdiv yoe 4 - Int.fdiv yoe 100)
  let mp := Int.fdiv (5 * doy + 2) 153
  let d := doy - Int.fdiv (153 * mp + 2) 5 + 1
  let m := if mp < 10 then mp + 3 else mp - 9
  ⟨if m ≤ 2 then y + 1 else y, m, d⟩

/-- `new Date(y, m0, d)` with a zero-based month `m0`: months outside
`0–11` and days outside the month are normalised by calendar carry. -/
def mkJsDate (y m0 d : ℤ) : JsDate :=
  let y1 := y + Int.fdiv m0 12
  let m1 := Int.fmod m0 12 + 1
  if 1 ≤ d && d ≤ monthLen y1 m1 then ⟨y1, m1, d⟩
  else civilFromDays (daysFromCivil y1 m1 1 + (d - 1))

def JsDate.dayNumber (dt : JsDate) : ℤ := daysFromCivil dt.year dt.month dt.day

/-! ### The four date regexes, as structural matchers -/

/-- Greedy maximal digit run together with its length bounds:
`matchDigits lo hi l` consumes the maximal digit prefix and succeeds
iff its length lies in `[lo, hi]` (which is exactly when the anchored
regex `\d{lo,hi}` can continue, digits being indivisible). -/
def matchDigits (lo hi : ℕ) (l : List Char) : Option (ℕ × List Char) :=
  let ds := l.takeWhile isDigitC
  if lo ≤ ds.length && ds.length ≤ hi then some (digitsToNat ds, l.dropWhile isDigitC)
  else none

/-- `^(\d{4})-(\d{2})-(\d{2})$`. -/
def matchISO (l : List Char) : Option (ℕ × ℕ × ℕ) :=
  match matchDigits 4 4 l with
  | some (y, '-' :: r1) =>
    match matchDigits 2 2 r1 with
    | some (m, '-' :: r2) =>
      match matchDigits 2 2 r2 with
      | some (d, []) => some (y, m, d)
      | _ => none
    | _ => none
  | _ => none

def isSep (c : Char) : Bool := c = '/' || c = '-'

/-- `^(\d{1,2})[\/\-](\d{1,2})[\/\-](\d{4})$` (day, month, 4-digit year). -/
def matchDMY4 (l : List Char) : Option (ℕ × ℕ × ℕ) :=
  match matchDigits 1 2 l with
  | some (d, s1 :: r1) =>
    if isSep s1 then
      match matchDigits 1 2 r1 with
      | some (m, s2 :: r2) =>
        if isSep s2 then
          match matchDigits 4 4 r2 with
          | some (y, []) => some (d, m, y)
          | _ => none
        else none
      | _ => none
    else none
  | _ => none

/-- `^(\d{1,2})[\/\-](\d{1,2})[\/\-](\d{2})$` (day, month, 2-digit year). -/
def matchDMY2 (l : List Char) : Option (ℕ × ℕ × ℕ) :=
  match matchDigits 1 2 l with
  | some (d, s1 :: r1) =>
    if isSep s1 then
      match matchDigits 1 2 r1 with
      | some (m, s2 :: r2) =>
        if isSep s2 then
          match matchDigits 2 2 r2 with
          | some (y, []) => some (d, m, y)
          | _ => none
        else none
      | _ => none
    else none
  | _ => none

/-- `^(\d{1,2})\s+(\w{3,})\s+(\d{4})$` (day, month word, year). -/
def matchDMonY (l : List Char) : Option (ℕ × List Char × ℕ) :=
  match matchDigits 1 2 l with
  | some (d, r1) =>
    let sp1 := r1.takeWhile isSpaceC
    if sp1.isEmpty then none
    else
      let r2 := r1.dropWhile isSpaceC
      let w := r2.takeWhile isWordC
      if w.length < 3 then none
      else
        let r3 := r2.dropWhile isWordC
        let sp2 := r3.takeWhile isSpaceC
        if sp2.isEmpty then none
        else
          match matchDigits 4 4 (r3.dropWhile isSpaceC) with
          | some (y, []) => some (d, w, y)
          | _ => none
  | none => none

def monthNames : List (List Char) :=
  ["january".data, "february".data, "march".data, "april".data, "may".data,
   "june".data, "july".data, "august".data, "september".data, "october".data,
   "november".data, "december".data]

/-- The host date parser's month-name recognition (as used by the
`DD MMM YYYY` branch through `new Date("<mon> <d>, <y>")`): a prefix of
an English month name of length ≥ 3, case-insensitively. -/
def monthFromName (w : List Char) : Option ℕ :=
  let lw := lowerL w
  let rec go : ℕ → List (List Char) → Option ℕ
    | _, [] => none
    | i, n :: t => if 3 ≤ lw.length && lw.isPrefixOf n then some i else go (i + 1) t
  go 1 monthNames

/-- `helpers.parseDate`.  A numeric value is an Excel serial date
(epoch offset 25569 days); strings try the four formats in order.
The final fallback `new Date(str)` (host-specific generic parsing) is
modelled as unparseable, and the serial/`ms` conversion is read in UTC;
no claim in this development exercises either. -/
def parseDate : Value → Option JsDate
  | .num q => some (civilFromDays (jsFloor ((q - 25569) * 86400 * 1000 / 86400000)))
  | .null => none
  | .str s =>
    let cs := trimL s.data
    match matchISO cs with
    | some (y, m, d) => some (mkJsDate y (m - 1) d)
    | none =>
      match matchDMY4 cs with
      | some (d, m, y) => some (mkJsDate y (m - 1) d)
      | none =>
        match matchDMY2 cs with
        | some (d, m, y) => some (mkJsDate (2000 + y) (m - 1) d)
        | none =>
          match matchDMonY cs with
          | some (d, w, y) =>
            match monthFromName w with
            | some mo =>
              if 1 ≤ d && (d : ℤ) ≤ monthLen y mo then some ⟨y, mo, d⟩ else none
            | none => none
          | none => none

def parseDateOpt : Option Value → Option JsDate
  | some v => parseDate v
  | none => none

def monthAbbrevs : List String :=
  ["Jan", "Feb", "Mar", "Apr", "May", "Jun", "Jul", "Aug", "Sep", "Oct", "Nov", "Dec"]

def monthFulls : List String :=
  ["January", "February", "March", "April", "May", "June",
   "July", "August", "September", "October", "November", "December"]

/-- `String(n).padStart(2, '0')`. -/
def pad2 (n : ℤ) : String :=
  let s := intRepr n
  if s.length < 2 then "0" ++ s else s

/-- `helpers.formatDate(value, format)`: canonical rendering of a
parseable date; an unparseable value is returned unchanged. -/
def formatDate (v : Value) (fmt : String) : Value :=
  match parseDate v with
  | none => v
  | some dt =>
    let dd := pad2 dt.day
    let mm := pad2 dt.month
    let mmm := monthAbbrevs.getD (dt.month - 1).toNat ""
    let yyyy := intRepr dt.year
    if fmt = "DD/MM/YYYY" then .str (dd ++ "/" ++ mm ++ "/" ++ yyyy)
    else if fmt = "YYYY-MM-DD" then .str (yyyy ++ "-" ++ mm ++ "-" ++ dd)
    else if fmt = "DD MMMM YYYY" then
      .str (dd ++ " " ++ monthFulls.getD (dt.month - 1).toNat "" ++ " " ++ yyyy)
    else .str (dd ++ "-" ++ mmm ++ "-" ++ yyyy)

/-- `helpers.isFutureDate`, with the analysis time passed explicitly. -/
def isFutureDate (now : JsDate) (v : Option Value) : Bool :=
  match parseDateOpt v with
  | none => false
  | some dt => now.dayNumber < dt.dayNumber

/-! ## Text-case helpers -/

/-- Body of `toTitleCase`: uppercase every word character at the start
or after whitespace (the matches of `/(?:^|\s)\w/g`). -/
def titleAux : Bool → List Char → List Char
  | _, [] => []
  | atBoundary, c :: t =>
    if atBoundary && isWordC c then Char.toUpper c :: titleAux false t
    else c :: titleAux (isSpaceC c) t

/-- `helpers.toTitleCase` on a string. -/
def toTitleCaseS (s : String) : String := ⟨titleAux true (lowerL s.data)⟩

def toTitleCase : Value → Value
  | .str s => .str (toTitleCaseS s)
  | v => v

/-- `helpers.toSentenceCase` on a string. -/
def toSentenceCaseS (s : String) : String :=
  match s.data with
  | [] => ""
  | c :: t => ⟨Char.toUpper c :: lowerL t⟩

def toSentenceCase : Value → Value
  | .str s => .str (toSentenceCaseS s)
  | v => v

/-! ## Phone helpers -/

/-- `helpers.formatPhoneID`: normalise the digit string to a leading
`0`, then render `+62 XXX-XXXX-XXXX` when the length fits; otherwise
return the (coerced) input string. -/
def formatPhoneID (v : Value) : String :=
  let s := jsToString v
  let digits := s.data.filter isDigitC
  let digits2 :=
    match digits with
    | '6' :: '2' :: rest => '0' :: rest
    | '8' :: rest => '0' :: '8' :: rest
    | l => l
  if 10 ≤ digits2.length && digits2.length ≤ 13 then
    let formatted := digits2.take 4 ++ '-' :: (digits2.drop 4).take 4 ++ '-' :: digits2.drop 8
    "+62 " ++ ⟨formatted.drop 1⟩
  else s

/-- `helpers.isValidPhoneID`. -/
def isValidPhoneID (v : Value) : Bool :=
  let digits := (jsToString v).data.filter isDigitC
  if digits.length < 10 || 13 < digits.length then false
  else
    ["08".data, "8".data, "628".data].any (fun p => p.isPrefixOf digits)

/-! ## Email helpers -/

/-- A character allowed by the regex class `[^\s@]`. -/
def emailOkChar (c : Char) : Bool := !(isSpaceC c || c = '@')

/-- The test `^[^\s@]+@[^\s@]+\.[^\s@]+$`, unfolded: exactly one `@`
(the classes exclude it), a nonempty local part, and a `.` in the
domain that is neither its first nor its last character (the split
the backtracking `[^\s@]+\.[^\s@]+` requires). -/
def emailRegexTest (l : List Char) : Bool :=
  let a := l.takeWhile (· ≠ '@')
  match l.dropWhile (· ≠ '@') with
  | '@' :: b =>
    !a.isEmpty && a.all emailOkChar && !b.contains '@' && b.all emailOkChar &&
      ((b.drop 1).dropLast.contains '.')
  | _ => false

/-- `helpers.isValidEmail` (non-strings are invalid). -/
def isValidEmail : Value → Bool
  | .str s => emailRegexTest (lowerL (trimL s.data))
  | _ => false

/-- Collapse every run of `@`s to a single `@` (`replace(/@@+/g, '@')`). -/
def collapseAtAux : Bool → List Char → List Char
  | _, [] => []
  | inRun, c :: t =>
    if c = '@' then
      if inRun then collapseAtAux true t else '@' :: collapseAtAux true t
    else c :: collapseAtAux false t

/-- `helpers.fixEmail` on a string: trim+lowercase, strip trailing
dots, collapse repeated `@`, remove whitespace. -/
def fixEmailS (s : String) : String :=
  let e1 := lowerL (trimL s.data)
  let e2 := (e1.reverse.dropWhile (· = '.')).reverse
  let e3 := collapseAtAux false e2
  ⟨e3.filter (fun c => !isSpaceC c)⟩

def fixEmail : Value → Value
  | .str s => .str (fixEmailS s)
  | v => v

/-! ## Indonesia-specific helpers -/

/-- `INDONESIA.PROVINCE_CODES` from `utils/constants.js`. -/
def provinceCodes : List (String × String) :=
  [("11", "Aceh"), ("12", "Sumatera Utara"), ("13", "Sumatera Barat"),
   ("14", "Riau"), ("15", "Jambi"), ("16", "Sumatera Selatan"),
   ("17", "Bengkulu"), ("18", "Lampung"), ("19", "Bangka Belitung"),
   ("21", "Kepulauan Riau"), ("31", "DKI Jakarta"), ("32", "Jawa Barat"),
   ("33", "Jawa Tengah"), ("34", "DI Yogyakarta"), ("35", "Jawa Timur"),
   ("36", "Banten"), ("51", "Bali"), ("52", "NTB"), ("53", "NTT"),
   ("61", "Kalimantan Barat"), ("62", "Kalimantan Tengah"),
   ("63", "Kalimantan Selatan"), ("64", "Kalimantan Timur"),
   ("65", "Kalimantan Utara"), ("71", "Sulawesi Utara"),
   ("72", "Sulawesi Tengah"), ("73", "Sulawesi Selatan"),
   ("74", "Sulawesi Tenggara"), ("75", "Gorontalo"),
   ("76", "Sulawesi Barat"), ("81", "Maluku"), ("82", "Maluku Utara"),
   ("91", "Papua"), ("92", "Papua Barat")]

def lookupStr : List (String × String) → String → Option String
  | [], _ => none
  | (k, v) :: t, h => if k = h then some v else lookupStr t h

/-- The `parsed` payload of a valid NIK. -/
structure NikParsed where
  province : String
  provinceCode : String
  regencyCode : String
  districtCode : String
  birthDate : String
  gender : String
  sequence : String
deriving DecidableEq, Repr

structure NikResult where
  isValid : Bool
  errors : List String
  parsed : Option NikParsed
deriving DecidableEq, Repr

/-- `helpers.validateNIK`: 16 digits; province code from the fixed
table; the day field carries `+40` for females; `year < 50` decodes to
the 2000s, otherwise the 1900s. -/
def validateNIK (v : Value) : NikResult :=
  let cleaned := (jsToString v).data.filter isDigitC
  if cleaned.length ≠ 16 then
    { isValid := false,
      errors := ["Invalid length: " ++ natRepr cleaned.length ++ " (should be 16)"],
      parsed := none }
  else
    let provinceCode : String := ⟨cleaned.take 2⟩
    let regencyCode : String := ⟨(cleaned.drop 2).take 2⟩
    let districtCode : String := ⟨(cleaned.drop 4).take 2⟩
    let birth := (cleaned.drop 6).take 6
    let seq : String := ⟨cleaned.drop 12⟩
    let provName := lookupStr provinceCodes provinceCode
    let day0 := digitsToNat (birth.take 2)
    let month := digitsToNat ((birth.drop 2).take 2)
    let year := digitsToNat (birth.drop 4)
    let isFemale := decide (40 < day0)
    let day := if isFemale then day0 - 40 else day0
    let errs :=
      (if provName.isNone then ["Invalid province code: " ++ provinceCode] else []) ++
      (if month < 1 || 12 < month || day < 1 || 31 < day then ["Invalid birth date in NIK"] else [])
    if errs.isEmpty then
      { isValid := true, errors := [],
        parsed := some
          { province := provName.getD "Unknown",
            provinceCode, regencyCode, districtCode,
            birthDate := pad2 day ++ "/" ++ pad2 month ++ "/" ++
              natRepr (if year < 50 then 2000 + year else 1900 + year),
            gender := if isFemale then "Female" else "Male",
            sequence := seq } }
    else { isValid := false, errors := errs, parsed := none }

/-- `helpers.formatNIK`: `dddddd.dddddd.dddd` when 16 digits, else the
coerced input unchanged. -/
def formatNIK (v : Value) : String :=
  let s := jsToString v
  let cleaned := s.data.filter isDigitC
  if cleaned.length ≠ 16 then s
  else ⟨cleaned.take 6 ++ '.' :: (cleaned.drop 6).take 6 ++ '.' :: cleaned.drop 12⟩

structure NpwpResult where
  isValid : Bool
  errors : List String
  formatted : Option String
deriving DecidableEq, Repr

/-- `helpers.validateNPWP`: 15 digits, canonical punctuation
`XX.XXX.XXX.X-XXX.XXX`. -/
def validateNPWP (v : Value) : NpwpResult :=
  let cleaned := (jsToString v).data.filter isDigitC
  if cleaned.length ≠ 15 then
    { isValid := false,
      errors := ["Invalid length: " ++ natRepr cleaned.length ++ " (should be 15)"],
      formatted := none }
  else
    { isValid := true, errors := [],
      formatted := some ⟨cleaned.take 2 ++ '.' :: (cleaned.drop 2).take 3 ++
        '.' :: (cleaned.drop 5).take 3 ++ '.' :: (cleaned.drop 8).take 1 ++
        '-' :: (cleaned.drop 9).take 3 ++ '.' :: cleaned.drop 12⟩ }

/-! ## Outlier and similarity helpers -/

def insertSorted (x : ℚ) : List ℚ → List ℚ
  | [] => [x]
  | y :: t => if x ≤ y then x :: y :: t else y :: insertSorted x t

/-- Ascending numeric sort (`sort((a, b) => a - b)`). -/
def sortQ (l : List ℚ) : List ℚ := l.foldr insertSorted []

/-- `helpers.isOutlier`: IQR fences with quartiles at the floored
`0.25`/`0.75` positions of the ascending sort. -/
def isOutlier (value : ℚ) (values : List ℚ) : Bool :=
  let sorted := sortQ values
  match sorted with
  | [] => false
  | _ =>
    let n := sorted.length
    let q1 := sorted.getD (n / 4) 0
    let q3 := sorted.getD (3 * n / 4) 0
    let iqr := q3 - q1
    value < q1 - 3 / 2 * iqr || q3 + 3 / 2 * iqr < value

/-- The inner `j` loop of `helpers.levenshteinDistance`: walk the
columns of row `i`, reading `up = dp[i-1][j]` from the remainder of
the previous row and carrying `diag = dp[i-1][j-1]` and
`left = dp[i][j-1]`. -/
def levRowGo (c1 : Char) : List Char → List ℕ → ℕ → ℕ → List ℕ
  | [], _, _, _ => []
  | _ :: _, [], _, _ => []
  | c2 :: t2, up :: pt, diag, left =>
    let cur := if c1 = c2 then diag else 1 + min up (min left diag)
    cur :: levRowGo c1 t2 pt up cur

/-- The outer `i` loop of `helpers.levenshteinDistance`: each row
starts with `dp[i][0] = i`. -/
def levRows (s2 : List Char) : List Char → ℕ → List ℕ → List ℕ
  | [], _, row => row
  | c1 :: t1, i, row =>
    levRows s2 t1 (i + 1) (i :: levRowGo c1 s2 row.tail (row.headD 0) i)

/-- `helpers.levenshteinDistance`: the DP table built row by row from
`dp[0] = [0, 1, …, n]`; the answer is `dp[m][n]`, the last entry of
the final row. -/
def lev (s1 s2 : List Char) : ℕ :=
  (levRows s2 s1 1 (List.range (s2.length + 1))).getLastD 0

/-- `helpers.stringSimilarity` (0–1, with falsy inputs scored 0). -/
def stringSimilarity (a b : String) : ℚ :=
  if a = "" || b = "" then 0
  else
    let s1 := trimL (lowerL a.data)
    let s2 := trimL (lowerL b.data)
    if s1 = s2 then 1
    else 1 - (lev s1 s2 : ℚ) / (max s1.length s2.length : ℕ)

def trimS (s : String) : String := ⟨trimL s.data⟩

/-! ## The issue model (`Issue`, severities, types)

The fields observed by the pipeline are modelled; the free-text
`message`/`suggestion`/`details` payloads and the random `id` /
`timestamp` stamps are not. -/

inductive Severity where
  | autoFix | needsReview | critical
deriving DecidableEq, Repr

inductive IType where
  | dateInconsistent | numberFormat | currencyFormat | phoneFormat
  | emailFormat | textCase | whitespace
  | duplicateRow | duplicateFuzzy | emptyRow | emptyCell
  | numericOutlier | negativeInvalid | futureDate
  | calculationError | sequenceGap
  | nikInvalid | npwpInvalid | taxCalculation
  | noHeader | duplicateHeader
deriving DecidableEq, Repr

/-- The `fixInfo` payload of the two calculation issues. -/
inductive FixInfo where
  | calc (qtyCol priceCol totalCol : String)
  | tax (dppCol ppnCol : String) (rate : ℚ)
deriving DecidableEq, Repr

structure Issue where
  itype : IType
  severity : Severity
  row : Option ℕ := none
  columnName : Option String := none
  columnIdx : Option ℕ := none
  value : Option Value := none
  affectedRows : Option ℕ := none
  autoFix : Bool := false
  fixInfo : Option FixInfo := none
  missingNumbers : List ℕ := []
deriving DecidableEq, Repr

/-- Inferred column types (`ColumnTypeInfo.type`; the confidence and
distribution are not read by analyzer or cleaner). -/
inductive CType where
  | string | number | currency | date | email | phone
  | nik | npwp | percentage | boolean | mixed | empty
deriving DecidableEq, Repr

def CTypes := List (String × CType)

def lookupCT : CTypes → String → Option CType
  | [], _ => none
  | (k, v) :: t, h => if k = h then some v else lookupCT t h

/-! ## Rule engine: structure pass -/

def structHeaderGo : List String → ℕ → List String → List Issue
  | _, _, [] => []
  | seen, idx, h :: t =>
    (if h = "" || "Column_".data.isPrefixOf h.data then
      [{ itype := .noHeader, severity := .needsReview, columnIdx := some (idx + 1) }]
     else []) ++
    (if seen.contains (lowerS h) then
      [{ itype := .duplicateHeader, severity := .autoFix, columnName := some h, autoFix := true }]
     else []) ++
    structHeaderGo (lowerS h :: seen) (idx + 1) t

def emptyRowsGo (headers : List String) (total : ℕ) : ℕ → List Row → List Issue
  | _, [] => []
  | idx, r :: t =>
    (if headers.all (fun h => isEmptyCell (r.get h)) && idx < total - 1 then
      [{ itype := .emptyRow, severity := .autoFix, row := some r.rowIndex, autoFix := true }]
     else []) ++
    emptyRowsGo headers total (idx + 1) t

/-- `Analyzer._analyzeStructure`. -/
def analyzeStructure (headers : List String) (data : List Row) : List Issue :=
  structHeaderGo [] 0 headers ++ emptyRowsGo headers data.length 0 data

/-! ## Rule engine: format-consistency pass -/

/-- Is the cell neither `''` nor `null`? (`undefined` is kept by this
filter, faithfully to `v.value !== '' && v.value !== null`). -/
def notEmptyNotNull (o : Option Value) : Bool :=
  !(o = some (.str "") || o = some .null)

/-- Prefix test `^\d{4}-\d{2}-\d{2}`. -/
def isoPrefix (l : List Char) : Bool :=
  (l.takeWhile isDigitC).length = 4 &&
    (match l.dropWhile isDigitC with
     | '-' :: r2 =>
       (r2.takeWhile isDigitC).length = 2 &&
         (match r2.dropWhile isDigitC with
          | '-' :: r3 => 2 ≤ (r3.takeWhile isDigitC).length
          | _ => false)
     | _ => false)

/-- Prefix test `^\d{1,2}<sep>\d{1,2}<sep>\d{4}` with a fixed separator. -/
def dmyPrefix (sep : Char) (l : List Char) : Bool :=
  let d1 := (l.takeWhile isDigitC).length
  (1 ≤ d1 && d1 ≤ 2) &&
    (match l.dropWhile isDigitC with
     | c :: r2 =>
       c = sep &&
         (let d2 := (r2.takeWhile isDigitC).length
          (1 ≤ d2 && d2 ≤ 2) &&
            (match r2.dropWhile isDigitC with
             | c2 :: r3 => c2 = sep && 4 ≤ (r3.takeWhile isDigitC).length
             | _ => false))
     | _ => false)

/-- Prefix test `^\d{1,2}\s+\w+\s+\d{4}`. -/
def dMonPrefix (l : List Char) : Bool :=
  let d1 := (l.takeWhile isDigitC).length
  (1 ≤ d1 && d1 ≤ 2) &&
    (let r1 := l.dropWhile isDigitC
     !(r1.takeWhile isSpaceC).isEmpty &&
       (let r2 := r1.dropWhile isSpaceC
        !(r2.takeWhile isWordC).isEmpty &&
          (let r3 := r2.dropWhile isWordC
           !(r3.takeWhile isSpaceC).isEmpty &&
             4 ≤ ((r3.dropWhile isSpaceC).takeWhile isDigitC).length)))

/-- The format tag assigned to a date string by `_checkDateConsistency`. -/
def fmtTag (s : String) : String :=
  if isoPrefix s.data then "ISO"
  else if dmyPrefix '/' s.data then "DD/MM/YYYY"
  else if dmyPrefix '-' s.data then "DD-MM-YYYY"
  else if dMonPrefix s.data then "DD MMM YYYY"
  else "OTHER"

def dedupKeepFirst : List String → List String → List String
  | _, [] => []
  | seen, x :: t =>
    if seen.contains x then dedupKeepFirst seen t
    else x :: dedupKeepFirst (x :: seen) t

/-- `Analyzer._checkDateConsistency` (future-date issues per cell, then
one auto-fix issue when more than one distinct format tag is seen). -/
def checkDateConsistency (now : JsDate) (h : String)
    (values : List (Option Value × ℕ)) : List Issue :=
  (values.filterMap (fun p =>
    if isFutureDate now p.1 then
      some { itype := .futureDate, severity := .needsReview, row := some p.2,
             columnName := some h, value := p.1 }
    else none)) ++
  (if 1 < (dedupKeepFirst [] (values.map (fun p => fmtTag (jsToStringOpt p.1)))).length then
    [{ itype := .dateInconsistent, severity := .autoFix, columnName := some h,
       autoFix := true, affectedRows := some values.length }]
   else [])

/-- The test `^[Rr][Pp]\.?\s?[\d.,]+$` (with the optional dot/space
resolved by backtracking). -/
def currencyRegexTest (l : List Char) : Bool :=
  match l with
  | c1 :: c2 :: rest =>
    isRpPair c1 c2 &&
      (let ok := fun (m : List Char) => !m.isEmpty && m.all (fun c => isDigitC c || c = '.' || c = ',')
       ok rest ||
       (match rest with
        | '.' :: r => ok r || (match r with
                               | c :: r2 => isSpaceC c && ok r2
                               | [] => false)
        | _ => false) ||
       (match rest with
        | c :: r => isSpaceC c && ok r
        | [] => false))
  | _ => false

/-- `Analyzer._checkNumberConsistency`: counts the per-cell findings
(numbers stored as text; currency cells off the canonical `Rp` shape)
and emits one auto-fix issue carrying the count. -/
def checkNumberConsistency (h : String) (values : List (Option Value × ℕ))
    (isCurrency : Bool) : List Issue :=
  let entries := values.foldl (fun acc p =>
    acc +
    (match p.1 with
     | some (.str s) => if (parseNumber (.str s)).isSome then 1 else 0
     | _ => 0) +
    (if isCurrency then
      (let str := jsToStringOpt p.1
       if !currencyRegexTest str.data && !containsSub str.data "Rp".data then 1 else 0)
     else 0)) 0
  if 0 < entries then
    [{ itype := if isCurrency then .currencyFormat else .numberFormat,
       severity := .autoFix, columnName := some h, autoFix := true,
       affectedRows := some entries }]
  else []

/-- `Analyzer._checkPhoneConsistency`. -/
def checkPhoneConsistency (h : String) (values : List (Option Value × ℕ)) : List Issue :=
  let entries := values.countP (fun p =>
    let str := jsToStringOpt p.1
    !isValidPhoneID (.str str) || formatPhoneID (.str str) ≠ str)
  if 0 < entries then
    [{ itype := .phoneFormat, severity := .autoFix, columnName := some h,
       autoFix := true, affectedRows := some entries }]
  else []

/-- `Analyzer._checkEmailConsistency`: per-cell critical issues for
unfixable addresses, then one auto-fix issue counting the fixable and
mixed-case ones. -/
def checkEmailConsistency (h : String) (values : List (Option Value × ℕ)) : List Issue :=
  let criticals := values.filterMap (fun p =>
    let str := trimS (jsToStringOpt p.1)
    if !isValidEmail (.str str) && !isValidEmail (.str (fixEmailS str)) then
      some { itype := .emailFormat, severity := .critical, row := some p.2,
             columnName := some h, value := p.1 }
    else none)
  let entries := values.countP (fun p =>
    let str := trimS (jsToStringOpt p.1)
    if !isValidEmail (.str str) then isValidEmail (.str (fixEmailS str))
    else str ≠ lowerS str)
  criticals ++
    (if 0 < entries then
      [{ itype := .emailFormat, severity := .autoFix, columnName := some h,
         autoFix := true, affectedRows := some entries }]
     else [])

/-- Two consecutive whitespace characters somewhere (`/\s{2,}/`). -/
def hasWs2 : List Char → Bool
  | a :: b :: t => (isSpaceC a && isSpaceC b) || hasWs2 (b :: t)
  | _ => false

/-- `Analyzer._checkTextConsistency`. -/
def checkTextConsistency (h : String) (values : List (Option Value × ℕ)) : List Issue :=
  let strs := values.map (fun p => jsToStringOpt p.1)
  let wsCount := strs.countP (fun s => s ≠ trimS s || hasWs2 s.data)
  let u := strs.countP (fun s => s = upperS s)
  let lo := strs.countP (fun s => s ≠ upperS s && s = lowerS s)
  let ti := strs.countP (fun s => s ≠ upperS s && s ≠ lowerS s && s = toTitleCaseS s)
  let mx := strs.countP (fun s => s ≠ upperS s && s ≠ lowerS s && s ≠ toTitleCaseS s)
  let dominant := max (max u lo) (max mx ti)
  let total := values.length
  (if 0 < wsCount then
    [{ itype := .whitespace, severity := .autoFix, columnName := some h,
       autoFix := true, affectedRows := some wsCount }]
   else []) ++
  (if (dominant : ℚ) < (total : ℚ) * (8 / 10) && (mx : ℚ) < (total : ℚ) * (5 / 10) then
    [{ itype := .textCase, severity := .needsReview, columnName := some h }]
   else [])

/-- `Analyzer._analyzeFormatConsistency`: dispatch per column on the
inferred type. -/
def analyzeFormatConsistency (now : JsDate) (headers : List String)
    (data : List Row) (ct : CTypes) : List Issue :=
  headers.flatMap (fun h =>
    let values := (data.map (fun r => (r.get h, r.rowIndex))).filter
      (fun p => notEmptyNotNull p.1)
    if values.isEmpty then []
    else
      match lookupCT ct h with
      | some .date => checkDateConsistency now h values
      | some .currency => checkNumberConsistency h values true
      | some .number => checkNumberConsistency h values false
      | some .phone => checkPhoneConsistency h values
      | some .email => checkEmailConsistency h values
      | some .string => checkTextConsistency h values
      | _ => [])

/-! ## Rule engine: data-quality, duplicate, outlier passes -/

/-- `Analyzer._analyzeDataQuality`: flag columns with more than 20 %
(but not all) empty cells. -/
def analyzeDataQuality (headers : List String) (data : List Row) : List Issue :=
  headers.flatMap (fun h =>
    let ec := data.countP (fun r => isEmptyCell (r.get h))
    let p : ℚ := (ec : ℚ) / (data.length : ℚ) * 100
    if 0 < p && p < 100 && 20 < p then
      [{ itype := .emptyCell, severity := .needsReview, columnName := some h,
         affectedRows := some ec }]
    else [])

/-- Duplicate key of a row: all cells rendered, lower-cased, trimmed,
joined by `|`. -/
def dupKey (headers : List String) (r : Row) : String :=
  String.intercalate "|"
    (headers.map (fun h => trimS (lowerS (jsToString (cellOrEmpty (r.get h))))))

def countDupGo (headers : List String) : List String → List Row → ℕ
  | _, [] => 0
  | seen, r :: t =>
    let k := dupKey headers r
    if seen.contains k then 1 + countDupGo headers seen t
    else countDupGo headers (k :: seen) t

def fuzzyKeyCols (headers : List String) : List String :=
  headers.filter (fun h =>
    hasKw h "name" || hasKw h "email" || hasKw h "phone" || hasKw h "id" ||
    hasKw h "nama" || hasKw h "telepon")

/-- Is a row pair a fuzzy duplicate: every key column where both cells
are nonempty has similarity above `0.85`, and at least one was compared. -/
def isFuzzyPair (cols : List String) (r1 r2 : Row) : Bool :=
  let checks := cols.filterMap (fun c =>
    let v1 := trimS (lowerS (jsToString (cellOrEmpty (r1.get c))))
    let v2 := trimS (lowerS (jsToString (cellOrEmpty (r2.get c))))
    if v1 ≠ "" && v2 ≠ "" then some (decide ((85 : ℚ) / 100 < stringSimilarity v1 v2))
    else none)
  !checks.isEmpty && checks.all id

/-- The pairwise fuzzy scan with the 50-pair cost cap (checked after
each outer iteration). -/
def fuzzyGo (cols : List String) : ℕ → List Row → ℕ
  | acc, [] => acc
  | acc, r :: t =>
    let acc2 := acc + t.countP (isFuzzyPair cols r)
    if 50 ≤ acc2 then acc2 else fuzzyGo cols acc2 t

/-- `Analyzer._analyzeFuzzyDuplicates`. -/
def analyzeFuzzyDuplicates (headers : List String) (data : List Row) : List Issue :=
  let cols := fuzzyKeyCols headers
  if cols.isEmpty then []
  else
    let n := fuzzyGo cols 0 data
    if 0 < n then
      [{ itype := .duplicateFuzzy, severity := .needsReview,
         affectedRows := some (n * 2) }]
    else []

/-- `Analyzer._analyzeDuplicates`: one auto-fix issue counting exact
duplicates, then the fuzzy scan. -/
def analyzeDuplicates (headers : List String) (data : List Row) : List Issue :=
  let n := countDupGo headers [] data
  (if 0 < n then
    [{ itype := .duplicateRow, severity := .autoFix, autoFix := true,
       affectedRows := some n }]
   else []) ++
  analyzeFuzzyDuplicates headers data

/-- `Analyzer._analyzeOutliers`: IQR outliers per numeric column with
at least 10 parsed values, then negative values in positive-by-name
columns. -/
def analyzeOutliers (headers : List String) (data : List Row) (ct : CTypes) : List Issue :=
  (headers.flatMap (fun h =>
    if lookupCT ct h = some .number || lookupCT ct h = some .currency then
      let values := data.filterMap (fun r =>
        (parseNumberOpt (r.get h)).map (fun q => (q, r.rowIndex, r.get h)))
      if values.length < 10 then []
      else
        let numbers := values.map (fun v => v.1)
        values.filterMap (fun v =>
          if isOutlier v.1 numbers then
            some { itype := .numericOutlier, severity := .needsReview,
                   row := some v.2.1, columnName := some h, value := v.2.2 }
          else none)
    else [])) ++
  ((headers.filter (fun h =>
      hasKw h "qty" || hasKw h "quantity" || hasKw h "jumlah" || hasKw h "stock" ||
      hasKw h "price" || hasKw h "harga" || hasKw h "amount" || hasKw h "total")).flatMap
    (fun h => data.filterMap (fun r =>
      match parseNumberOpt (r.get h) with
      | some q =>
        if q < 0 then
          some { itype := .negativeInvalid, severity := .needsReview,
                 row := some r.rowIndex, columnName := some h, value := r.get h }
        else none
      | none => none)))

/-! ## Rule engine: logic pass -/

/-- All maximal digit runs of a string (`match(/\d+/g)`). -/
def runsGo : Option (List Char) → List Char → List (List Char)
  | cur, [] => match cur with
               | some r => [r.reverse]
               | none => []
  | cur, c :: t =>
    if isDigitC c then runsGo (some (c :: cur.getD [])) t
    else
      match cur with
      | some r => r.reverse :: runsGo none t
      | none => runsGo none t

def digitRuns (l : List Char) : List (List Char) := runsGo none l

/-- The last digit run of a cell, as a number (`null` when there is none). -/
def lastDigitRun (s : String) : Option ℕ :=
  (digitRuns s.data).getLast?.map digitsToNat

def insertSortedN (x : ℕ) : List ℕ → List ℕ
  | [] => [x]
  | y :: t => if x ≤ y then x :: y :: t else y :: insertSortedN x t

def sortN (l : List ℕ) : List ℕ := l.foldr insertSortedN []

def dedupN : List ℕ → List ℕ → List ℕ
  | _, [] => []
  | seen, x :: t =>
    if seen.contains x then dedupN seen t else x :: dedupN (x :: seen) t

/-- Missing integers between consecutive entries of the sorted list. -/
def gapsBetween : List ℕ → List ℕ
  | a :: b :: t =>
    (if 1 < b - a then List.range' (a + 1) (b - a - 1) else []) ++ gapsBetween (b :: t)
  | _ => []

/-- The `numericParts` extraction of `_checkSequence`: last digit run
of every non-empty cell of the column. -/
def seqParts (h : String) (data : List Row) : List ℕ :=
  ((data.map (fun r => r.get h)).filter notEmptyNotNull).filterMap
    (fun v => lastDigitRun (jsToStringOpt v))

/-- `Analyzer._checkSequence`: extract last digit runs, dedupe, sort;
emit one needs-review issue listing the missing integers — but only
when there are 1 to 10 of them in total. -/
def checkSequence (h : String) (data : List Row) : List Issue :=
  let numericParts := seqParts h data
  if numericParts.length < 3 then []
  else
    let sorted := sortN (dedupN [] numericParts)
    let gaps := gapsBetween sorted
    if 0 < gaps.length && gaps.length ≤ 10 then
      [{ itype := .sequenceGap, severity := .needsReview, columnName := some h,
         missingNumbers := gaps }]
    else []

/-- Specification-side description of the missing numbers of a column:
the integers strictly between the smallest and the largest extracted
value that do not occur among the extracted values (in ascending
order).  `_checkSequence`'s per-consecutive-pair gap collection is
proved equal to this. -/
def specMissing (parts : List ℕ) : List ℕ :=
  match parts.min?, parts.max? with
  | some lo, some hi =>
    (List.range (hi + 1)).filter (fun n => lo < n && !parts.contains n)
  | _, _ => []

/-- `Analyzer._analyzeLogic`: the qty×price=total check (1 % relative
tolerance, at least 1 unit), then sequence gaps on id-like columns. -/
def analyzeLogic (headers : List String) (data : List Row) : List Issue :=
  let isQty := fun (h : String) => hasKw h "qty" || hasKw h "quantity" || hasKw h "jumlah"
  let isPrice := fun (h : String) => hasKw h "price" || hasKw h "harga" || hasKw h "unit"
  let isTotal := fun (h : String) => hasKw h "total" || hasKw h "amount" || hasKw h "subtotal"
  let calcIssues :=
    if headers.any isQty && headers.any isPrice && headers.any isTotal then
      match headers.find? isQty, headers.find? isPrice, headers.find? isTotal with
      | some qtyCol, some priceCol, some totalCol =>
        let errs := data.countP (fun r =>
          match parseNumberOpt (r.get qtyCol), parseNumberOpt (r.get priceCol),
                parseNumberOpt (r.get totalCol) with
          | some q, some p, some t =>
            jsMax 1 (q * p * (1 / 100)) < jsAbs (q * p - t)
          | _, _, _ => false)
        if 0 < errs then
          [{ itype := .calculationError, severity := .autoFix, autoFix := true,
             affectedRows := some errs,
             fixInfo := some (.calc qtyCol priceCol totalCol) }]
        else []
      | _, _, _ => []
    else []
  calcIssues ++
    (headers.filter (fun h =>
      hasKw h "no" || hasKw h "number" || hasKw h "invoice" || hasKw h "id")).flatMap
      (fun h => checkSequence h data)

/-! ## Rule engine: Indonesia-specific pass -/

/-- `Analyzer._validateNIKColumn` (only the invalid-NIK critical issue
is emitted; the needs-format list is collected but unused upstream). -/
def validateNIKColumn (h : String) (data : List Row) : List Issue :=
  let invalid := data.countP (fun r =>
    cellTruthy (r.get h) && !(validateNIK ((r.get h).getD .null)).isValid)
  if 0 < invalid then
    [{ itype := .nikInvalid, severity := .critical, columnName := some h,
       affectedRows := some invalid }]
  else []

/-- `Analyzer._validateNPWPColumn`. -/
def validateNPWPColumn (h : String) (data : List Row) : List Issue :=
  let invalid := data.countP (fun r =>
    cellTruthy (r.get h) && !(validateNPWP ((r.get h).getD .null)).isValid)
  let needsFormat := data.countP (fun r =>
    cellTruthy (r.get h) &&
      (let v := (r.get h).getD .null
       let val := validateNPWP v
       val.isValid &&
         (match v with
          | .str s => val.formatted ≠ some s
          | _ => true)))
  (if 0 < invalid then
    [{ itype := .npwpInvalid, severity := .critical, columnName := some h,
       affectedRows := some invalid }]
   else []) ++
  (if 0 < needsFormat then
    [{ itype := .npwpInvalid, severity := .autoFix, columnName := some h,
       autoFix := true, affectedRows := some needsFormat }]
   else [])

/-- `INDONESIA.PPN_RATE` (exactly 11 %). -/
def ppnRate : ℚ := 11 / 100

/-- `Analyzer._validateTaxCalculations`. -/
def validateTaxCalculations (headers : List String) (data : List Row) : List Issue :=
  let isDpp := fun (h : String) => hasKw h "dpp" || hasKw h "dasar"
  let isPpn := fun (h : String) => hasKw h "ppn" || hasKw h "vat" || hasKw h "tax"
  if headers.any isDpp && headers.any isPpn then
    match headers.find? isDpp, headers.find? isPpn with
    | some dppCol, some ppnCol =>
      let errs := data.countP (fun r =>
        match parseNumberOpt (r.get dppCol), parseNumberOpt (r.get ppnCol) with
        | some d, some p => 0 < d && 1 < jsAbs (d * ppnRate - p)
        | _, _ => false)
      if 0 < errs then
        [{ itype := .taxCalculation, severity := .autoFix, autoFix := true,
           affectedRows := some errs,
           fixInfo := some (.tax dppCol ppnCol ppnRate) }]
      else []
    | _, _ => []
  else []

/-- `Analyzer._analyzeIndonesiaSpecific`. -/
def analyzeIndonesiaSpecific (headers : List String) (data : List Row)
    (ct : CTypes) : List Issue :=
  (headers.flatMap (fun h =>
    (if lookupCT ct h = some .nik || hasKw h "nik" || hasKw h "ktp" then
      validateNIKColumn h data
     else []) ++
    (if lookupCT ct h = some .npwp || hasKw h "npwp" then
      validateNPWPColumn h data
     else []))) ++
  validateTaxCalculations headers data

/-! ## Quality score -/

structure QualityScore where
  score : ℤ
  grade : String
  label : String
deriving DecidableEq, Repr

/-- The letter grade the source derives from the running (unrounded,
unclamped) score. -/
def gradeOf (q : ℚ) : String :=
  if 90 ≤ q then "A" else if 80 ≤ q then "B" else if 70 ≤ q then "C"
  else if 60 ≤ q then "D" else "F"

def labelOf (q : ℚ) : String :=
  if 90 ≤ q then "Excellent" else if 80 ≤ q then "Good" else if 70 ≤ q then "Fair"
  else if 60 ≤ q then "Poor" else "Critical"

/-- Deduction of one issue (`affectedRows || 1`, impact as a
percentage of the row count, severity-specific cap). -/
def issueDeduction (dataLen : ℕ) (i : Issue) : ℚ :=
  let a : ℕ := match i.affectedRows with
               | some n => if n = 0 then 1 else n
               | none => 1
  let impact : ℚ := (a : ℚ) / (dataLen : ℚ) * 100
  match i.severity with
  | .critical => jsMin 20 (impact * 2)
  | .needsReview => jsMin 10 impact
  | .autoFix => jsMin 5 (impact * (1 / 2))

/-- The running score after all deductions. -/
def rawScore (dataLen : ℕ) (issues : List Issue) : ℚ :=
  issues.foldl (fun s i => s - issueDeduction dataLen i) 100

/-- `Analyzer._calculateQualityScore`: the returned score is clamped at
0 and rounded, while grade and label are derived from the raw score. -/
def calculateQualityScore (dataLen : ℕ) (issues : List Issue) : QualityScore :=
  let raw := rawScore dataLen issues
  { score := max 0 (jsRound raw), grade := gradeOf raw, label := labelOf raw }

/-! ## `Analyzer.analyze` -/

structure AnalysisResult where
  success : Bool
  issues : List Issue
  autoFixIssues : List Issue
  needsReviewIssues : List Issue
  criticalIssues : List Issue
  qualityScore : Option QualityScore
deriving DecidableEq, Repr

/-- The seven detection passes, in call order. -/
def analyzeIssues (now : JsDate) (headers : List String) (data : List Row)
    (ct : CTypes) : List Issue :=
  analyzeStructure headers data ++
  analyzeFormatConsistency now headers data ct ++
  analyzeDataQuality headers data ++
  analyzeDuplicates headers data ++
  analyzeOutliers headers data ct ++
  analyzeLogic headers data ++
  analyzeIndonesiaSpecific headers data ct

/-- `Analyzer.analyze` (the timing, mode and summary bookkeeping fields
are not modelled). -/
def analyze (now : JsDate) (headers : List String) (data : List Row)
    (ct : CTypes) : AnalysisResult :=
  if data.isEmpty then
    { success := false, issues := [], autoFixIssues := [],
      needsReviewIssues := [], criticalIssues := [], qualityScore := none }
  else
    let issues := analyzeIssues now headers data ct
    { success := true, issues,
      autoFixIssues := issues.filter (fun i => i.severity = .autoFix),
      needsReviewIssues := issues.filter (fun i => i.severity = .needsReview),
      criticalIssues := issues.filter (fun i => i.severity = .critical),
      qualityScore := some (calculateQualityScore data.length issues) }

/-- The pass list of `analyze` as separately-run computations: the
source calls the seven passes in sequence with no exception handler, so
a pass that throws is modelled as an `Except.error` in this list. -/
def analyzePasses (now : JsDate) (headers : List String) (data : List Row)
    (ct : CTypes) : List (Except String (List Issue)) :=
  [.ok (analyzeStructure headers data),
   .ok (analyzeFormatConsistency now headers data ct),
   .ok (analyzeDataQuality headers data),
   .ok (analyzeDuplicates headers data),
   .ok (analyzeOutliers headers data ct),
   .ok (analyzeLogic headers data),
   .ok (analyzeIndonesiaSpecific headers data ct)]

/-- Sequencing of the passes exactly as the straight-line calls in
`analyze` do it: no handler, so the first exception propagates and
aborts everything after it. -/
def analyzeSeq : List (Except String (List Issue)) → Except String (List Issue)
  | [] => .ok []
  | p :: ps =>
    match p with
    | .error e => .error e
    | .ok is =>
      match analyzeSeq ps with
      | .error e => .error e
      | .ok rest => .ok (is ++ rest)

/-! ## Auto-fix engine (`Cleaner`) -/

/-- A change-log record (`_logChange` entries and `SUMMARY` records;
the timestamps and message strings are not modelled). -/
inductive Change where
  | removeDuplicate (row : ℕ)
  | removeEmpty (row : ℕ)
  | fixCalculation (row : ℕ) (column : String) (oldValue : Option ℚ) (newValue : ℚ)
  | fixTax (row : ℕ) (column : String) (oldValue : Option ℚ) (newValue : ℤ)
  | summary (operation : String) (count : ℕ)
deriving DecidableEq, Repr

/-- The cleaner's running state: change log, modified-cell counter and
the set of affected row indexes. -/
structure CState where
  changes : List Change := []
  cellsModified : ℕ := 0
  rowsAffected : List ℕ := []
deriving DecidableEq, Repr

/-- One cell modified in the given row. -/
def CState.bump (st : CState) (i : ℕ) : CState :=
  { st with
    cellsModified := st.cellsModified + 1,
    rowsAffected := if st.rowsAffected.contains i then st.rowsAffected
                    else st.rowsAffected ++ [i] }

def CState.log (st : CState) (c : Change) : CState :=
  { st with changes := st.changes ++ [c] }

/-- Walk of `Cleaner._removeDuplicates`: keep the first row of every
duplicate key, log each removal. -/
def rdGo (headers : List String) : List String → List Row → List Row × List Change × ℕ
  | _, [] => ([], [], 0)
  | seen, r :: t =>
    let k := dupKey headers r
    if seen.contains k then
      let (rows, chs, n) := rdGo headers seen t
      (rows, .removeDuplicate r.rowIndex :: chs, n + 1)
    else
      let (rows, chs, n) := rdGo headers (k :: seen) t
      (r :: rows, chs, n)

/-- `Cleaner._removeDuplicates`. -/
def removeDuplicatesC (headers : List String) (data : List Row) (st : CState) :
    List Row × CState :=
  let z := rdGo headers [] data
  (z.1,
   { st with changes := st.changes ++ z.2.1 ++
       (if 0 < z.2.2 then [.summary "Remove Duplicates" z.2.2] else []) })

/-- `Cleaner._removeEmptyRows`. -/
def removeEmptyRowsC (headers : List String) (data : List Row) (st : CState) :
    List Row × CState :=
  let kept := data.filter (fun r => headers.any (fun h => !isEmptyCell (r.get h)))
  let removedRows := data.filter (fun r => !headers.any (fun h => !isEmptyCell (r.get h)))
  let n := removedRows.length
  (kept,
   { st with changes := st.changes ++ removedRows.map (fun r => .removeEmpty r.rowIndex) ++
       (if 0 < n then [.summary "Remove Empty Rows" n] else []) })

/-- One row of `Cleaner._fixWhitespace`: clean every string cell. -/
def fwRow (headers : List String) (r : Row) (st : CState) : Row × CState × ℕ :=
  headers.foldl (fun acc h =>
    match (acc.1).get h with
    | some (.str s) =>
      let c := cleanStringS s
      if c ≠ s then ((acc.1).set h (.str c), (acc.2.1).bump (acc.1).rowIndex, acc.2.2 + 1)
      else acc
    | _ => acc) (r, st, 0)

/-- `Cleaner._fixWhitespace`. -/
def fixWhitespaceC (headers : List String) (data : List Row) (st : CState) :
    List Row × CState :=
  let z := data.foldl (fun (acc : List Row × CState × ℕ) r =>
    let (r2, st2, k) := fwRow headers r acc.2.1
    (acc.1 ++ [r2], st2, acc.2.2 + k)) ([], st, 0)
  (z.1, if 0 < z.2.2 then (z.2.1).log (.summary "Fix Whitespace" z.2.2) else z.2.1)

/-- Generic per-column/per-row cell rewrite used by the standardisation
steps: `applyCell h r` returns the replacement value when the cell is
to be rewritten. -/
def cellFixGo (applyCell : String → Row → Option Value) (headers : List String)
    (data : List Row) (st : CState) (opName : String) : List Row × CState :=
  let z := headers.foldl (fun (acc : List Row × CState × ℕ) h =>
    acc.1.foldl (fun (a : List Row × CState × ℕ) r =>
      match applyCell h r with
      | some v2 => (a.1 ++ [r.set h v2], (a.2.1).bump r.rowIndex, a.2.2 + 1)
      | none => (a.1 ++ [r], a.2.1, a.2.2)) ([], acc.2.1, acc.2.2)) (data, st, 0)
  (z.1, if 0 < z.2.2 then (z.2.1).log (.summary opName z.2.2) else z.2.1)

/-- The per-cell rewrite of `_standardizeDates`. -/
def dateCell (ct : CTypes) (fmt : String) (h : String) (r : Row) : Option Value :=
  if lookupCT ct h = some .date then
    match r.get h with
    | some v =>
      if v.truthy then
        let f := formatDate v fmt
        if f ≠ v then some f else none
      else none
    | none => none
  else none

/-- `Cleaner._standardizeDates`. -/
def standardizeDatesC (headers : List String) (data : List Row) (ct : CTypes)
    (fmt : String) (st : CState) : List Row × CState :=
  cellFixGo (dateCell ct fmt) headers data st "Standardize Dates"

/-- The per-cell rewrite of `_standardizeNumbers`. -/
def numberCell (ct : CTypes) (h : String) (r : Row) : Option Value :=
  if lookupCT ct h = some .currency then
    match r.get h with
    | some v =>
      if v.truthy then
        match parseNumber v with
        | some q =>
          let f := formatCurrency (.num q)
          if f ≠ v then some f else none
        | none => none
      else none
    | none => none
  else if lookupCT ct h = some .number then
    match r.get h with
    | some (.str s) =>
      if (Value.str s).truthy then
        match parseNumber (.str s) with
        | some q => some (.num q)
        | none => none
      else none
    | _ => none
  else none

/-- `Cleaner._standardizeNumbers`: currency cells are reformatted to
the `Rp` string; plain number cells stored as text become numbers. -/
def standardizeNumbersC (headers : List String) (data : List Row) (ct : CTypes)
    (st : CState) : List Row × CState :=
  cellFixGo (numberCell ct) headers data st "Standardize Numbers"

/-- The per-cell rewrite of `_standardizePhones`. -/
def phoneCell (ct : CTypes) (h : String) (r : Row) : Option Value :=
  if lookupCT ct h = some .phone then
    match r.get h with
    | some v =>
      if v.truthy then
        let f := formatPhoneID v
        if (match v with
            | .str s => decide (f ≠ s)
            | _ => true) && f ≠ jsToString v then
          some (.str f)
        else none
      else none
    | none => none
  else none

/-- `Cleaner._standardizePhones`. -/
def standardizePhonesC (headers : List String) (data : List Row) (ct : CTypes)
    (st : CState) : List Row × CState :=
  cellFixGo (phoneCell ct) headers data st "Standardize Phones"

/-- The per-cell rewrite of `_standardizeEmails`. -/
def emailCell (ct : CTypes) (h : String) (r : Row) : Option Value :=
  if lookupCT ct h = some .email then
    match r.get h with
    | some v =>
      if v.truthy then
        let c := fixEmail v
        if c ≠ v then some c else none
      else none
    | none => none
  else none

/-- `Cleaner._standardizeEmails`. -/
def standardizeEmailsC (headers : List String) (data : List Row) (ct : CTypes)
    (st : CState) : List Row × CState :=
  cellFixGo (emailCell ct) headers data st "Standardize Emails"

/-- One row of `Cleaner._fixCalculations`. -/
def calcStep (qtyCol priceCol totalCol : String) (acc : List Row × CState × ℕ)
    (r : Row) : List Row × CState × ℕ :=
  match parseNumberOpt (r.get qtyCol), parseNumberOpt (r.get priceCol) with
  | some q, some p =>
    let cur := parseNumberOpt (r.get totalCol)
    let expected := q * p
    if cur = none || 1 < jsAbs (expected - cur.getD 0) then
      (acc.1 ++ [r.set totalCol (.num expected)],
       ((acc.2.1).bump r.rowIndex).log (.fixCalculation r.rowIndex totalCol cur expected),
       acc.2.2 + 1)
    else (acc.1 ++ [r], acc.2.1, acc.2.2)
  | _, _ => (acc.1 ++ [r], acc.2.1, acc.2.2)

/-- `Cleaner._fixCalculations`: in every row with numeric qty and
price, overwrite the total when it is missing or more than 1 unit off. -/
def fixCalculationsC (data : List Row) (qtyCol priceCol totalCol : String)
    (st : CState) : List Row × CState :=
  let z := data.foldl (calcStep qtyCol priceCol totalCol) ([], st, 0)
  (z.1, if 0 < z.2.2 then (z.2.1).log (.summary "Fix Calculations" z.2.2) else z.2.1)

/-- `Cleaner._fixTaxCalculations`. -/
def fixTaxCalculationsC (data : List Row) (dppCol ppnCol : String) (rate : ℚ)
    (st : CState) : List Row × CState :=
  let z := data.foldl (fun (acc : List Row × CState × ℕ) r =>
    match parseNumberOpt (r.get dppCol) with
    | some d =>
      if 0 < d then
        let cur := parseNumberOpt (r.get ppnCol)
        let expected : ℤ := jsRound (d * rate)
        if cur = none || 1 < jsAbs ((expected : ℚ) - cur.getD 0) then
          (acc.1 ++ [r.set ppnCol (.num expected)],
           ((acc.2.1).bump r.rowIndex).log (.fixTax r.rowIndex ppnCol cur expected),
           acc.2.2 + 1)
        else (acc.1 ++ [r], acc.2.1, acc.2.2)
      else (acc.1 ++ [r], acc.2.1, acc.2.2)
    | none => (acc.1 ++ [r], acc.2.1, acc.2.2)) ([], st, 0)
  (z.1, if 0 < z.2.2 then (z.2.1).log (.summary "Fix Tax Calculations" z.2.2) else z.2.1)

/-- The per-cell rewrite of `_formatNPWP`. -/
def npwpCell (ct : CTypes) (h : String) (r : Row) : Option Value :=
  if lookupCT ct h = some .npwp || hasKw h "npwp" then
    match r.get h with
    | some v =>
      if v.truthy then
        let val := validateNPWP v
        if val.isValid &&
            (match v with
             | .str s => val.formatted ≠ some s
             | _ => true) then
          some (.str (val.formatted.getD ""))
        else none
      else none
    | none => none
  else none

/-- `Cleaner._formatNPWP`. -/
def formatNPWPC (headers : List String) (data : List Row) (ct : CTypes)
    (st : CState) : List Row × CState :=
  cellFixGo (npwpCell ct) headers data st "Format NPWP"

/-- The text-case option of the cleaner. -/
inductive TCase where
  | upper | lower | title | sentence
deriving DecidableEq, Repr

def applyTCase : TCase → String → String
  | .upper, s => upperS s
  | .lower, s => lowerS s
  | .title, s => toTitleCaseS s
  | .sentence, s => toSentenceCaseS s

/-- The per-cell rewrite of `_standardizeTextCase`. -/
def textCaseCell (ct : CTypes) (tc : TCase) (h : String) (r : Row) : Option Value :=
  if lookupCT ct h = some .string then
    match r.get h with
    | some (.str s) =>
      if (Value.str s).truthy then
        let n := applyTCase tc s
        if n ≠ s then some (.str n) else none
      else none
    | _ => none
  else none

/-- `Cleaner._standardizeTextCase`. -/
def standardizeTextCaseC (headers : List String) (data : List Row) (ct : CTypes)
    (tc : TCase) (st : CState) : List Row × CState :=
  cellFixGo (textCaseCell ct tc) headers data st "Standardize Text Case"

structure CleanStats where
  totalChanges : ℕ
  rowsAffected : ℕ
  cellsModified : ℕ
  originalRowCount : ℕ
  cleanedRowCount : ℕ
  rowsRemoved : ℕ
deriving DecidableEq, Repr

structure CleanResult where
  headers : List String
  data : List Row
  stats : CleanStats
  changes : List Change
deriving DecidableEq, Repr

structure COptions where
  dateFormat : Option String := none
  textCase : Option TCase := none
deriving DecidableEq, Repr

/-- `Cleaner.clean`: apply each fix whose auto-fix issue type is
present, in the fixed source order, on the (deep-cloned) table. -/
def clean (headers : List String) (pdata : List Row) (analysis : AnalysisResult)
    (ct : CTypes) (opts : COptions) : CleanResult :=
  let st0 : CState := {}
  let autoFix := analysis.autoFixIssues
  let has := fun (t : IType) => autoFix.any (fun i => i.itype = t)
  let z1 := if has .duplicateRow then removeDuplicatesC headers pdata st0 else (pdata, st0)
  let z2 := if has .emptyRow then removeEmptyRowsC headers z1.1 z1.2 else z1
  let z3 := if has .whitespace then fixWhitespaceC headers z2.1 z2.2 else z2
  let z4 := if has .dateInconsistent then
      standardizeDatesC headers z3.1 ct (opts.dateFormat.getD "DD-MMM-YYYY") z3.2
    else z3
  let z5 := if has .numberFormat || has .currencyFormat then
      standardizeNumbersC headers z4.1 ct z4.2
    else z4
  let z6 := if has .phoneFormat then standardizePhonesC headers z5.1 ct z5.2 else z5
  let z7 := if has .emailFormat then standardizeEmailsC headers z6.1 ct z6.2 else z6
  let z8 := if has .calculationError then
      match (autoFix.find? (fun i => i.itype = .calculationError)).bind Issue.fixInfo with
      | some (.calc q p t) => fixCalculationsC z7.1 q p t z7.2
      | _ => z7
    else z7
  let z9 := if has .taxCalculation then
      match (autoFix.find? (fun i => i.itype = .taxCalculation)).bind Issue.fixInfo with
      | some (.tax dp pp rate) => fixTaxCalculationsC z8.1 dp pp rate z8.2
      | _ => z8
    else z8
  let z10 := if has .npwpInvalid then formatNPWPC headers z9.1 ct z9.2 else z9
  let z11 := match opts.textCase with
             | some tc => standardizeTextCaseC headers z10.1 ct tc z10.2
             | none => z10
  { headers, data := z11.1,
    stats := { totalChanges := z11.2.changes.length,
               rowsAffected := z11.2.rowsAffected.length,
               cellsModified := z11.2.cellsModified,
               originalRowCount := pdata.length,
               cleanedRowCount := z11.1.length,
               rowsRemoved := pdata.length - z11.1.length },
    changes := z11.2.changes }

structure BCOptions where
  removeDuplicates : Bool := true
  removeEmpty : Bool := true
  trimWhitespace : Bool := true
  textCase : Option TCase := none
deriving DecidableEq, Repr

/-- `Cleaner.basicClean`: duplicates, empty rows and whitespace only
(each on by default), plus the optional text-case pass run with every
column treated as a string column. -/
def basicClean (headers : List String) (data : List Row) (opts : BCOptions) :
    CleanResult :=
  let st0 : CState := {}
  let z1 := if opts.removeDuplicates then removeDuplicatesC headers data st0 else (data, st0)
  let z2 := if opts.removeEmpty then removeEmptyRowsC headers z1.1 z1.2 else z1
  let z3 := if opts.trimWhitespace then fixWhitespaceC headers z2.1 z2.2 else z2
  let z4 := match opts.textCase with
            | some tc =>
              standardizeTextCaseC headers z3.1 (headers.map (fun h => (h, CType.string))) tc z3.2
            | none => z3
  { headers, data := z4.1,
    stats := { totalChanges := z4.2.changes.length,
               rowsAffected := z4.2.rowsAffected.length,
               cellsModified := z4.2.cellsModified,
               originalRowCount := data.length,
               cleanedRowCount := z4.1.length,
               rowsRemoved := data.length - z4.1.length },
    changes := z4.2.changes }

/-! ## Object-identity model of the cleaner

JS rows are mutable objects reached through references.  To state the
aliasing behaviour of `clean` (deep-clones its input) versus
`basicClean` (copies only the row array, `[...data]`), the heap of row
objects is modelled as a list indexed by object identity, and a table
is a list of indices into it.  Removal steps only shrink the index
list; the whitespace fix (and the later cell fixes) write through the
indices in place. -/

def dfltRow : Row := ⟨0, []⟩

def storeGet (st : List Row) (i : ℕ) : Row := st.getD i dfltRow

def storeSet (st : List Row) (i : ℕ) (r : Row) : List Row := st.set i r

/-- The per-row effect of `_fixWhitespace` (clean every string cell). -/
def fixWsRow (headers : List String) (r : Row) : Row :=
  headers.foldl (fun row h =>
    match row.get h with
    | some (.str s) =>
      let c := cleanStringS s
      if c ≠ s then row.set h (.str c) else row
    | _ => row) r

/-- `_removeDuplicates` on references: drop ids whose row duplicates an
earlier key (reads the store, writes nothing). -/
def rdRefGo (headers : List String) (st : List Row) : List String → List ℕ → List ℕ
  | _, [] => []
  | seen, i :: t =>
    let k := dupKey headers (storeGet st i)
    if seen.contains k then rdRefGo headers st seen t
    else i :: rdRefGo headers st (k :: seen) t

/-- `_removeEmptyRows` on references. -/
def reRef (headers : List String) (st : List Row) (ids : List ℕ) : List ℕ :=
  ids.filter (fun i => headers.any (fun h => !isEmptyCell ((storeGet st i).get h)))

/-- Apply a per-row fix in place through every reference of the table. -/
def applyRowFixRef (f : Row → Row) (st : List Row) (ids : List ℕ) : List Row :=
  ids.foldl (fun st i => storeSet st i (f (storeGet st i))) st

/-- `Cleaner.basicClean` with default options on the reference model:
the id list is filtered, then the whitespace fix mutates the caller's
row objects through the surviving references. -/
def basicCleanRef (headers : List String) (st : List Row) (ids : List ℕ) :
    List Row × List ℕ :=
  let ids1 := rdRefGo headers st [] ids
  let ids2 := reRef headers st ids1
  (applyRowFixRef (fixWsRow headers) st ids2, ids2)

/-- The per-row effect of one standardisation step of `clean`
(`cellFixGo` visits the headers left to right on each row). -/
def rowFix (applyCell : String → Row → Option Value) (headers : List String)
    (r : Row) : Row :=
  headers.foldl (fun row h =>
    match applyCell h row with
    | some v => row.set h v
    | none => row) r

/-- The per-row effect of `_fixCalculations`. -/
def calcRow (qtyCol priceCol totalCol : String) (r : Row) : Row :=
  match parseNumberOpt (r.get qtyCol), parseNumberOpt (r.get priceCol) with
  | some q, some p =>
    let cur := parseNumberOpt (r.get totalCol)
    if cur = none || 1 < jsAbs (q * p - cur.getD 0) then r.set totalCol (.num (q * p))
    else r
  | _, _ => r

/-- The per-row effect of `_fixTaxCalculations`. -/
def taxRow (dppCol ppnCol : String) (rate : ℚ) (r : Row) : Row :=
  match parseNumberOpt (r.get dppCol) with
  | some d =>
    if 0 < d then
      let cur := parseNumberOpt (r.get ppnCol)
      let expected : ℤ := jsRound (d * rate)
      if cur = none || 1 < jsAbs ((expected : ℚ) - cur.getD 0) then
        r.set ppnCol (.num expected)
      else r
    else r
  | none => r

/-- The in-place row fixes `clean` applies after row removal, in
source order, each present only when its gating auto-fix issue is. -/
def cleanRowFixes (headers : List String) (analysis : AnalysisResult)
    (ct : CTypes) (opts : COptions) : List (Row → Row) :=
  let autoFix := analysis.autoFixIssues
  let has := fun (t : IType) => autoFix.any (fun i => i.itype = t)
  (if has .whitespace then [fixWsRow headers] else []) ++
  (if has .dateInconsistent then
    [rowFix (dateCell ct (opts.dateFormat.getD "DD-MMM-YYYY")) headers] else []) ++
  (if has .numberFormat || has .currencyFormat then
    [rowFix (numberCell ct) headers] else []) ++
  (if has .phoneFormat then [rowFix (phoneCell ct) headers] else []) ++
  (if has .emailFormat then [rowFix (emailCell ct) headers] else []) ++
  (if has .calculationError then
    match (autoFix.find? (fun i => i.itype = .calculationError)).bind Issue.fixInfo with
    | some (.calc q p t) => [calcRow q p t]
    | _ => []
   else []) ++
  (if has .taxCalculation then
    match (autoFix.find? (fun i => i.itype = .taxCalculation)).bind Issue.fixInfo with
    | some (.tax dp pp rate) => [taxRow dp pp rate]
    | _ => []
   else []) ++
  (if has .npwpInvalid then [rowFix (npwpCell ct) headers] else []) ++
  (match opts.textCase with
   | some tc => [rowFix (textCaseCell ct tc) headers]
   | none => [])

/-- The references surviving the removal steps of `clean`: the clone
ids, thinned by the duplicate and empty-row removals when their
auto-fix issues are present. -/
def cleanRefIds (headers : List String) (st1 : List Row) (base len : ℕ)
    (analysis : AnalysisResult) : List ℕ :=
  let cloneIds := List.range' base len
  let has := fun (t : IType) => analysis.autoFixIssues.any (fun i => i.itype = t)
  let ids1 := if has .duplicateRow then rdRefGo headers st1 [] cloneIds else cloneIds
  if has .emptyRow then reRef headers st1 ids1 else ids1

/-- `Cleaner.clean` on the reference model: the deep clone appends
fresh row objects to the store, the removal steps shrink the id list,
and every in-place fix then writes only through the fresh references. -/
def cleanRef (headers : List String) (st : List Row) (ids : List ℕ)
    (analysis : AnalysisResult) (ct : CTypes) (opts : COptions) :
    List Row × List ℕ :=
  let st1 := st ++ ids.map (storeGet st)
  let ids2 := cleanRefIds headers st1 st.length ids.length analysis
  let stFinal := (cleanRowFixes headers analysis ct opts).foldl
    (fun st f => applyRowFixRef f st ids2) st1
  (stFinal, ids2)

/-- A fixed analysis timestamp for the concrete scenarios (no claim
depends on the clock; it only feeds the future-date check). -/
def analysisNow : JsDate := ⟨2026, 10, 12⟩

/-! # Lemmas -/

theorem lookupCell_set_self (cells : List (String × Value)) (h : String) (v : Value) :
    lookupCell (setCell cells h v) h = some v := by
  induction cells with
  | nil => simp [setCell, lookupCell]
  | cons kv t ih =>
    obtain ⟨k, w⟩ := kv
    by_cases hk : k = h <;> simp [setCell, lookupCell, hk, ih]

theorem lookupCell_set_ne (cells : List (String × Value)) (h h' : String) (v : Value)
    (hne : h' ≠ h) : lookupCell (setCell cells h v) h' = lookupCell cells h' := by
  induction cells with
  | nil =>
    simp only [setCell, lookupCell]
    rw [if_neg (fun he => hne he.symm)]
  | cons kv t ih =>
    obtain ⟨k, w⟩ := kv
    by_cases hk : k = h
    · subst hk
      simp only [setCell, if_pos rfl, lookupCell]
      rw [if_neg (fun he => hne he.symm), if_neg (fun he => hne he.symm)]
    · simp only [setCell, if_neg hk, lookupCell]
      by_cases hk' : k = h' <;> simp [hk', ih]

theorem Row.get_set_self (r : Row) (h : String) (v : Value) :
    (r.set h v).get h = some v := lookupCell_set_self r.cells h v

theorem Row.get_set_ne (r : Row) (h h' : String) (v : Value) (hne : h' ≠ h) :
    (r.set h v).get h' = r.get h' := lookupCell_set_ne r.cells h h' v hne

theorem Row.rowIndex_set (r : Row) (h : String) (v : Value) :
    (r.set h v).rowIndex = r.rowIndex := rfl

/-- One step of the calculation repair appends exactly the per-row
repair of the visited row. -/
theorem calcStep_fst (cq cp ct0 : String) (z : List Row × CState × ℕ) (r : Row) :
    (calcStep cq cp ct0 z r).1 = z.1 ++ [calcRow cq cp ct0 r] := by
  unfold calcStep calcRow
  rcases parseNumberOpt (r.get cq) with _ | q <;>
    rcases parseNumberOpt (r.get cp) with _ | p <;> simp
  split <;> simp

theorem calcFold_fst (cq cp ct0 : String) :
    ∀ (l : List Row) (z : List Row × CState × ℕ),
      (l.foldl (calcStep cq cp ct0) z).1 = z.1 ++ l.map (calcRow cq cp ct0)
  | [], z => by simp
  | r :: t, z => by
    rw [List.foldl_cons, calcFold_fst cq cp ct0 t, calcStep_fst]
    simp

/-- The row list produced by the calculation repair is the per-row
repair mapped over the input. -/
theorem fixCalculationsC_data (data : List Row) (cq cp ct0 : String) (st : CState) :
    (fixCalculationsC data cq cp ct0 st).1 = data.map (calcRow cq cp ct0) := by
  show (data.foldl (calcStep cq cp ct0) ([], st, 0)).1 = _
  rw [calcFold_fst]
  simp

theorem jsAbs_zero : jsAbs 0 = 0 := by simp [jsAbs]

/-- After the per-row calculation repair, a row whose qty and price
cells parse has a total within one unit of their product. -/
theorem calcRow_tolerance (cq cp ct0 : String) (hq1 : ct0 ≠ cq) (hp1 : ct0 ≠ cp)
    (r : Row) (q p : ℚ)
    (hq : parseNumberOpt ((calcRow cq cp ct0 r).get cq) = some q)
    (hp : parseNumberOpt ((calcRow cq cp ct0 r).get cp) = some p) :
    ∃ t, parseNumberOpt ((calcRow cq cp ct0 r).get ct0) = some t ∧
      jsAbs (q * p - t) ≤ 1 := by
  rcases hq0 : parseNumberOpt (r.get cq) with _ | q0 <;>
    rcases hp0 : parseNumberOpt (r.get cp) with _ | p0 <;>
    simp only [calcRow, hq0, hp0] at hq hp ⊢
  · exact Option.noConfusion hq
  · exact Option.noConfusion hq
  · exact Option.noConfusion hp
  · by_cases hcond :
      (parseNumberOpt (r.get ct0) = none ||
        1 < jsAbs (q0 * p0 - (parseNumberOpt (r.get ct0)).getD 0) : Bool)
    · rw [if_pos hcond] at hq hp ⊢
      rw [Row.get_set_ne r ct0 cq _ (Ne.symm hq1), hq0] at hq
      rw [Row.get_set_ne r ct0 cp _ (Ne.symm hp1), hp0] at hp
      have hq' : q0 = q := Option.some.inj hq
      have hp' : p0 = p := Option.some.inj hp
      subst hq'
      subst hp'
      refine ⟨q0 * p0, ?_, ?_⟩
      · rw [Row.get_set_self]
        rfl
      · rw [sub_self, jsAbs_zero]
        norm_num
    · rw [if_neg hcond] at hq hp ⊢
      rw [hq0] at hq
      rw [hp0] at hp
      have hq' : q0 = q := Option.some.inj hq
      have hp' : p0 = p := Option.some.inj hp
      subst hq'
      subst hp'
      simp only [Bool.or_eq_true, not_or, decide_eq_true_eq] at hcond
      rcases hcond with ⟨hsome, hle⟩
      rcases hcur : parseNumberOpt (r.get ct0) with _ | c
      · exact absurd hcur (by simpa using hsome)
      · refine ⟨c, rfl, ?_⟩
        rw [hcur] at hle
        simpa using le_of_not_lt (by simpa using hle)

/-- The per-row calculation repair is idempotent when the total column
is distinct from the qty and price columns. -/
theorem calcRow_idem (cq cp ct0 : String) (hq1 : ct0 ≠ cq) (hp1 : ct0 ≠ cp) (r : Row) :
    calcRow cq cp ct0 (calcRow cq cp ct0 r) = calcRow cq cp ct0 r := by
  rcases hq0 : parseNumberOpt (r.get cq) with _ | q0 <;>
    rcases hp0 : parseNumberOpt (r.get cp) with _ | p0
  · have hkept : calcRow cq cp ct0 r = r := by simp only [calcRow, hq0, hp0]
    rw [hkept]
    exact hkept
  · have hkept : calcRow cq cp ct0 r = r := by simp only [calcRow, hq0, hp0]
    rw [hkept]
    exact hkept
  · have hkept : calcRow cq cp ct0 r = r := by simp only [calcRow, hq0, hp0]
    rw [hkept]
    exact hkept
  · by_cases hcond :
      (parseNumberOpt (r.get ct0) = none ||
        1 < jsAbs (q0 * p0 - (parseNumberOpt (r.get ct0)).getD 0) : Bool)
    · have hfixed : calcRow cq cp ct0 r = r.set ct0 (.num (q0 * p0)) := by
        simp only [calcRow, hq0, hp0]
        rw [if_pos hcond]
      rw [hfixed]
      have hgq : parseNumberOpt ((r.set ct0 (.num (q0 * p0))).get cq) = some q0 := by
        rw [Row.get_set_ne r ct0 cq _ (Ne.symm hq1), hq0]
      have hgp : parseNumberOpt ((r.set ct0 (.num (q0 * p0))).get cp) = some p0 := by
        rw [Row.get_set_ne r ct0 cp _ (Ne.symm hp1), hp0]
      have hgt : parseNumberOpt ((r.set ct0 (.num (q0 * p0))).get ct0) = some (q0 * p0) := by
        rw [Row.get_set_self]
        rfl
      simp only [calcRow, hgq, hgp, hgt]
      rw [if_neg]
      simp [jsAbs_zero]
    · have hkept : calcRow cq cp ct0 r = r := by
        simp only [calcRow, hq0, hp0]
        rw [if_neg hcond]
      rw [hkept]
      exact hkept

/-- The seen-set walk of `_removeDuplicates` keeps only rows whose key
is not in `seen`, pairwise-distinctly. -/
theorem rdGo_keys (headers : List String) : ∀ (data : List Row) (seen : List String),
    (∀ r ∈ (rdGo headers seen data).1, seen.contains (dupKey headers r) = false) ∧
    List.Pairwise (fun a b => dupKey headers a ≠ dupKey headers b)
      (rdGo headers seen data).1
  | [], _ => by simp [rdGo]
  | r :: t, seen => by
    by_cases hc : seen.contains (dupKey headers r)
    · have ih := rdGo_keys headers t seen
      simp only [rdGo, hc, if_true]
      exact ih
    · have ih := rdGo_keys headers t (dupKey headers r :: seen)
      simp only [rdGo, hc, if_false, Bool.false_eq_true]
      constructor
      · intro r' hr'
        rcases List.mem_cons.mp hr' with rfl | hr'
        · exact Bool.eq_false_iff.mpr hc
        · have := ih.1 r' hr'
          simp only [List.contains_cons, Bool.or_eq_false_iff] at this
          exact this.2
      · refine List.Pairwise.cons ?_ ih.2
        intro r' hr'
        have := ih.1 r' hr'
        simp only [List.contains_cons, Bool.or_eq_false_iff] at this
        intro he
        rw [he] at this
        simp at this

theorem jsFloor_eq_floor (q : ℚ) : jsFloor q = ⌊q⌋ := by
  rw [Rat.floor_def]
  exact Int.fdiv_eq_ediv _ (Int.ofNat_nonneg _)

theorem jsMin_nonneg {a b : ℚ} (ha : 0 ≤ a) (hb : 0 ≤ b) : 0 ≤ jsMin a b := by
  unfold jsMin
  split <;> assumption

theorem issueDeduction_nonneg (dl : ℕ) (i : Issue) : 0 ≤ issueDeduction dl i := by
  unfold issueDeduction
  have himp : (0 : ℚ) ≤
      ((match i.affectedRows with
        | some n => if n = 0 then 1 else n
        | none => 1 : ℕ) : ℚ) / (dl : ℚ) * 100 := by positivity
  cases i.severity <;> exact jsMin_nonneg (by norm_num) (by linarith)

theorem foldl_deductions_le (dl : ℕ) :
    ∀ (issues : List Issue) (s : ℚ),
      issues.foldl (fun s i => s - issueDeduction dl i) s ≤ s
  | [], s => le_refl s
  | i :: t, s => by
    rw [List.foldl_cons]
    have h1 := foldl_deductions_le dl t (s - issueDeduction dl i)
    have h2 := issueDeduction_nonneg dl i
    linarith

theorem rawScore_le_100 (dl : ℕ) (issues : List Issue) : rawScore dl issues ≤ 100 :=
  foldl_deductions_le dl issues 100

/-- `new Date(y, m-1, d)` with in-range month and day needs no
normalisation. -/
theorem mkJsDate_valid (y m d : ℤ) (h1 : 1 ≤ m) (h2 : m ≤ 12) (h3 : 1 ≤ d)
    (h4 : d ≤ monthLen y m) : mkJsDate y (m - 1) d = ⟨y, m, d⟩ := by
  have hfd : Int.fdiv (m - 1) 12 = 0 := by
    rw [Int.fdiv_eq_ediv _ (by norm_num : (0 : ℤ) ≤ 12)]
    exact Int.ediv_eq_zero_of_lt (by omega) (by omega)
  have hfm : Int.fmod (m - 1) 12 = m - 1 := by
    rw [Int.fmod_eq_emod _ (by norm_num : (0 : ℤ) ≤ 12)]
    exact Int.emod_eq_of_lt (by omega) (by omega)
  have hm : m - 1 + 1 = m := by omega
  simp only [mkJsDate, hfd, hfm, add_zero, hm]
  rw [if_pos]
  simp only [Bool.and_eq_true, decide_eq_true_eq]
  exact ⟨h3, h4⟩

/-- Sequencing the passes of `analyze` with no error among them
produces exactly the issue list `analyze` collects. -/
theorem analyzeSeq_passes_ok (now : JsDate) (headers : List String)
    (data : List Row) (ct : CTypes) :
    analyzeSeq (analyzePasses now headers data ct) =
      .ok (analyzeIssues now headers data ct) := by
  simp [analyzePasses, analyzeSeq, analyzeIssues, List.append_assoc]

/-! ## Sequence-gap lemmas -/

theorem insertSortedN_eq_orderedInsert (a : ℕ) :
    ∀ l : List ℕ, insertSortedN a l = List.orderedInsert (· ≤ ·) a l
  | [] => rfl
  | y :: t => by
    simp only [insertSortedN, List.orderedInsert]
    by_cases h : a ≤ y <;> simp [h, insertSortedN_eq_orderedInsert a t]

theorem sortN_eq_insertionSort : ∀ l : List ℕ, sortN l = List.insertionSort (· ≤ ·) l
  | [] => rfl
  | x :: t => by
    simp only [sortN, List.insertionSort, List.foldr_cons]
    rw [show List.foldr insertSortedN [] t = sortN t from rfl, sortN_eq_insertionSort t,
      insertSortedN_eq_orderedInsert]

theorem sortN_sorted (l : List ℕ) : List.Pairwise (· ≤ ·) (sortN l) := by
  rw [sortN_eq_insertionSort]
  exact List.sorted_insertionSort _ l

theorem sortN_perm (l : List ℕ) : List.Perm (sortN l) l := by
  rw [sortN_eq_insertionSort]
  exact List.perm_insertionSort _ l

theorem dedupN_mem : ∀ (l seen : List ℕ) (x : ℕ),
    x ∈ dedupN seen l ↔ x ∈ l ∧ seen.contains x = false
  | [], seen, x => by simp [dedupN]
  | y :: t, seen, x => by
    by_cases hc : seen.contains y
    · rw [show dedupN seen (y :: t) =
          if seen.contains y then dedupN seen t else y :: dedupN (y :: seen) t from rfl,
        if_pos hc, dedupN_mem t seen x]
      constructor
      · exact fun h => ⟨List.mem_cons_of_mem _ h.1, h.2⟩
      · rintro ⟨h1, h2⟩
        rcases List.mem_cons.mp h1 with rfl | h1
        · rw [h2] at hc
          exact Bool.noConfusion hc
        · exact ⟨h1, h2⟩
    · rw [show dedupN seen (y :: t) =
          if seen.contains y then dedupN seen t else y :: dedupN (y :: seen) t from rfl,
        if_neg hc, List.mem_cons, dedupN_mem t (y :: seen) x]
      constructor
      · rintro (rfl | ⟨h1, h2⟩)
        · exact ⟨List.mem_cons_self x t, Bool.eq_false_iff.mpr hc⟩
        · simp only [List.contains_cons, Bool.or_eq_false_iff] at h2
          exact ⟨List.mem_cons_of_mem _ h1, h2.2⟩
      · rintro ⟨h1, h2⟩
        rcases List.mem_cons.mp h1 with rfl | h1
        · exact Or.inl rfl
        · by_cases hxy : x = y
          · exact Or.inl hxy
          · refine Or.inr ⟨h1, ?_⟩
            simp only [List.contains_cons, Bool.or_eq_false_iff]
            exact ⟨by simp [hxy], h2⟩

theorem dedupN_nodup : ∀ (l seen : List ℕ), (dedupN seen l).Nodup
  | [], seen => by simp [dedupN]
  | y :: t, seen => by
    by_cases hc : seen.contains y
    · rw [show dedupN seen (y :: t) =
          if seen.contains y then dedupN seen t else y :: dedupN (y :: seen) t from rfl,
        if_pos hc]
      exact dedupN_nodup t seen
    · rw [show dedupN seen (y :: t) =
          if seen.contains y then dedupN seen t else y :: dedupN (y :: seen) t from rfl,
        if_neg hc]
      refine List.Nodup.cons ?_ (dedupN_nodup t (y :: seen))
      intro hmem
      have h := (dedupN_mem t (y :: seen) y).mp hmem
      simp at h

theorem sortedDedup_pairwise_lt (parts : List ℕ) :
    List.Pairwise (· < ·) (sortN (dedupN [] parts)) := by
  have hs := sortN_sorted (dedupN [] parts)
  have hn : (sortN (dedupN [] parts)).Nodup :=
    (sortN_perm (dedupN [] parts)).nodup_iff.mpr (dedupN_nodup parts [])
  exact (hs.and hn).imp (fun h => lt_of_le_of_ne h.1 h.2)

theorem sortedDedup_mem (parts : List ℕ) (x : ℕ) :
    x ∈ sortN (dedupN [] parts) ↔ x ∈ parts := by
  rw [(sortN_perm (dedupN [] parts)).mem_iff, dedupN_mem]
  simp

/-- Membership in the collected gaps of a strictly sorted list: the
integers that lie strictly between two members without being one. -/
theorem mem_gapsBetween : ∀ (s : List ℕ), List.Pairwise (· < ·) s → ∀ n : ℕ,
    (n ∈ gapsBetween s ↔ ((∃ a ∈ s, a < n) ∧ (∃ b ∈ s, n < b) ∧ n ∉ s))
  | [], _, n => by simp [gapsBetween]
  | [a], _, n => by
    simp only [gapsBetween, List.not_mem_nil, false_iff, not_and]
    rintro ⟨x, hx, hxn⟩ ⟨y, hy, hyn⟩
    simp only [List.mem_singleton] at hx hy
    omega
  | a :: b :: t, hp, n => by
    have hab : a < b := (List.pairwise_cons.mp hp).1 b (List.mem_cons_self b t)
    have hbt : ∀ z ∈ t, b < z :=
      fun z hz => (List.pairwise_cons.mp (List.pairwise_cons.mp hp).2).1 z hz
    have ih := mem_gapsBetween (b :: t) (List.pairwise_cons.mp hp).2 n
    have hrange : (n ∈ if 1 < b - a then List.range' (a + 1) (b - a - 1) else []) ↔
        (a < n ∧ n < b) := by
      split
      · rw [List.mem_range'_1]
        omega
      · simp
        omega
    rw [show gapsBetween (a :: b :: t) =
        (if 1 < b - a then List.range' (a + 1) (b - a - 1) else []) ++
          gapsBetween (b :: t) from rfl,
      List.mem_append, hrange, ih]
    constructor
    · rintro (⟨h1, h2⟩ | ⟨⟨x, hx, hxn⟩, ⟨y, hy, hyn⟩, hnmem⟩)
      · refine ⟨⟨a, List.mem_cons_self a _, h1⟩,
          ⟨b, List.mem_cons_of_mem _ (List.mem_cons_self b t), h2⟩, ?_⟩
        simp only [List.mem_cons, not_or]
        refine ⟨by omega, by omega, fun hnt => ?_⟩
        have := hbt n hnt
        omega
      · have hbx : b ≤ x := by
          rcases List.mem_cons.mp hx with rfl | hx'
          · omega
          · exact le_of_lt (hbt x hx')
        refine ⟨⟨x, List.mem_cons_of_mem _ hx, hxn⟩,
          ⟨y, List.mem_cons_of_mem _ hy, hyn⟩, ?_⟩
        simp only [List.mem_cons, not_or] at hnmem ⊢
        exact ⟨by omega, hnmem.1, hnmem.2⟩
    · rintro ⟨⟨x, hx, hxn⟩, ⟨y, hy, hyn⟩, hnmem⟩
      simp only [List.mem_cons, not_or] at hnmem
      by_cases hnb : n < b
      · left
        have hxa : x = a := by
          rcases List.mem_cons.mp hx with rfl | hx'
          · rfl
          · rcases List.mem_cons.mp hx' with rfl | hx''
            · omega
            · have := hbt x hx''
              omega
        omega
      · right
        have hy' : y ∈ b :: t := by
          rcases List.mem_cons.mp hy with rfl | hy'
          · omega
          · exact hy'
        refine ⟨⟨b, List.mem_cons_self b t, by omega⟩, ⟨y, hy', hyn⟩, ?_⟩
        simp only [List.mem_cons, not_or]
        exact ⟨hnmem.2.1, hnmem.2.2⟩

theorem gapsBetween_pairwise : ∀ (s : List ℕ), List.Pairwise (· < ·) s →
    List.Pairwise (· < ·) (gapsBetween s)
  | [], _ => by simp [gapsBetween]
  | [_], _ => by simp [gapsBetween]
  | a :: b :: t, hp => by
    have hbt : ∀ z ∈ t, b < z :=
      fun z hz => (List.pairwise_cons.mp (List.pairwise_cons.mp hp).2).1 z hz
    rw [show gapsBetween (a :: b :: t) =
        (if 1 < b - a then List.range' (a + 1) (b - a - 1) else []) ++
          gapsBetween (b :: t) from rfl]
    apply List.pairwise_append.mpr
    refine ⟨?_, gapsBetween_pairwise (b :: t) (List.pairwise_cons.mp hp).2, ?_⟩
    · split
      · exact List.pairwise_lt_range' _ _ 1
      · exact List.Pairwise.nil
    · intro x hx y hy
      have hxb : x < b := by
        by_cases hcond : 1 < b - a
        · rw [if_pos hcond, List.mem_range'_1] at hx
          omega
        · rw [if_neg hcond] at hx
          simp at hx
      obtain ⟨⟨x', hx', hx'y⟩, -, -⟩ :=
        (mem_gapsBetween (b :: t) (List.pairwise_cons.mp hp).2 y).mp hy
      have hbx' : b ≤ x' := by
        rcases List.mem_cons.mp hx' with rfl | hx''
        · omega
        · exact le_of_lt (hbt x' hx'')
      omega

theorem mem_specMissing (parts : List ℕ) (n : ℕ) :
    n ∈ specMissing parts ↔
      ((∃ a ∈ parts, a < n) ∧ (∃ b ∈ parts, n < b) ∧ n ∉ parts) := by
  rcases hmin : parts.min? with _ | lo
  · have he : parts = [] := List.min?_eq_none_iff.mp hmin
    subst he
    simp [specMissing]
  · rcases hmax : parts.max? with _ | hi
    · have he : parts = [] := List.max?_eq_none_iff.mp hmax
      subst he
      simp at hmin
    · have hlo_mem : lo ∈ parts := List.min?_mem (fun a b => by omega) hmin
      have hhi_mem : hi ∈ parts := List.max?_mem (fun a b => by omega) hmax
      have hlo_le : ∀ b ∈ parts, lo ≤ b :=
        (List.le_min?_iff (fun a b c => by omega) hmin).mp (le_refl lo)
      have hle_hi : ∀ b ∈ parts, b ≤ hi :=
        (List.max?_le_iff (fun a b c => by omega) hmax).mp (le_refl hi)
      simp only [specMissing, hmin, hmax]
      rw [List.mem_filter, List.mem_range]
      constructor
      · rintro ⟨hr, hcond⟩
        simp only [Bool.and_eq_true, decide_eq_true_eq, Bool.not_eq_true',
          List.contains, List.elem_eq_mem, decide_eq_false_iff_not] at hcond
        have hne : n ≠ hi := fun he => hcond.2 (he ▸ hhi_mem)
        exact ⟨⟨lo, hlo_mem, hcond.1⟩, ⟨hi, hhi_mem, by omega⟩, hcond.2⟩
      · rintro ⟨⟨a, ha, han⟩, ⟨b, hb, hnb⟩, hnm⟩
        have h1 := hle_hi b hb
        have h2 := hlo_le a ha
        refine ⟨by omega, ?_⟩
        simp only [Bool.and_eq_true, decide_eq_true_eq, Bool.not_eq_true',
          List.contains, List.elem_eq_mem, decide_eq_false_iff_not]
        exact ⟨by omega, hnm⟩

/-- The per-consecutive-pair gap collection of `_checkSequence` equals
the specification-side list of missing integers. -/
theorem gapsBetween_sortedDedup_eq (parts : List ℕ) :
    gapsBetween (sortN (dedupN [] parts)) = specMissing parts := by
  have hpl := sortedDedup_pairwise_lt parts
  have h1 : List.Pairwise (· < ·) (gapsBetween (sortN (dedupN [] parts))) :=
    gapsBetween_pairwise _ hpl
  have h2 : List.Pairwise (· < ·) (specMissing parts) := by
    unfold specMissing
    rcases parts.min? with _ | lo
    · exact List.Pairwise.nil
    · rcases parts.max? with _ | hi
      · exact List.Pairwise.nil
      · exact List.Pairwise.sublist (List.filter_sublist _) (List.pairwise_lt_range _)
  haveI : IsAntisymm ℕ (· < ·) := ⟨fun a b hab hba => absurd hba (lt_asymm hab)⟩
  refine List.eq_of_perm_of_sorted ?_ h1 h2
  refine (List.perm_ext_iff_of_nodup (h1.imp ne_of_lt) (h2.imp ne_of_lt)).mpr ?_
  intro n
  rw [mem_gapsBetween _ hpl n, mem_specMissing]
  simp only [sortedDedup_mem]

/-! # Claim theorems (universally quantified parts) -/

/-- Claim C2, amended: the calculation repair guarantees only the
absolute 1-unit fix tolerance, not exactness.  For every table and every
row of the repair step's output in which the qty and the price columns
hold numeric values (the total column being a column distinct from
both), the stored total parses and lies within 1 unit of qty·price; it
is exactly qty·price only where the old total was missing or off by
more than 1. -/
theorem calc_repair_within_one_unit (data : List Row) (cq cp ct0 : String)
    (st : CState) (hq1 : ct0 ≠ cq) (hp1 : ct0 ≠ cp) (r : Row)
    (hr : r ∈ (fixCalculationsC data cq cp ct0 st).1) (q p : ℚ)
    (hq : parseNumberOpt (r.get cq) = some q)
    (hp : parseNumberOpt (r.get cp) = some p) :
    ∃ t, parseNumberOpt (r.get ct0) = some t ∧ jsAbs (q * p - t) ≤ 1 := by
  rw [fixCalculationsC_data] at hr
  obtain ⟨r0, _, rfl⟩ := List.mem_map.mp hr
  exact calcRow_tolerance cq cp ct0 hq1 hp1 r0 q p hq hp

/-- Claim C3, amended: one clean pass is not a fixed point of the whole
engine (currency canonicalisation keeps changing values, see the
counterexample); the repair core that is stable is the calculation
repair: run on its own output (with the same fix columns, the total
column distinct from qty and price) it changes no row. -/
theorem fix_calculations_idempotent (data : List Row) (cq cp ct0 : String)
    (st st' : CState) (hq1 : ct0 ≠ cq) (hp1 : ct0 ≠ cp) :
    (fixCalculationsC (fixCalculationsC data cq cp ct0 st).1 cq cp ct0 st').1 =
      (fixCalculationsC data cq cp ct0 st).1 := by
  rw [fixCalculationsC_data, fixCalculationsC_data, List.map_map]
  exact List.map_congr_left (fun r _ => calcRow_idem cq cp ct0 hq1 hp1 r)

/-- Claim C4, amended: the duplicate-removal step itself is correct —
its output contains no two rows with the same case-folded, trimmed key
— and the reported `rowsRemoved` always equals
`originalRowCount - cleanedRowCount`; but the full clean can output
rows identical after whitespace normalisation (see the
counterexample), because the dedupe key trims without collapsing inner
whitespace and dedupe runs before the whitespace fix. -/
theorem dedupe_keys_distinct_and_stats :
    (∀ (headers : List String) (data : List Row) (st : CState),
      List.Pairwise (fun a b => dupKey headers a ≠ dupKey headers b)
        (removeDuplicatesC headers data st).1) ∧
    (∀ (headers : List String) (pdata : List Row) (analysis : AnalysisResult)
      (ct : CTypes) (opts : COptions),
      (clean headers pdata analysis ct opts).stats.rowsRemoved =
        (clean headers pdata analysis ct opts).stats.originalRowCount -
          (clean headers pdata analysis ct opts).stats.cleanedRowCount) := by
  constructor
  · intro headers data st
    exact (rdGo_keys headers data []).2
  · intro headers pdata analysis ct opts
    rfl

/-- Claim C9, amended: the Logic pass extracts the last digit run of
every non-empty cell, and for columns with at least three extracted
values reports the integers missing between the smallest and largest
extracted value as one NEEDS_REVIEW `SEQUENCE_GAP` issue listing all
of them — but only when their total number is between 1 and 10.  A gap
of more than 10 missing values is silently suppressed, not reported:
the 10 is a suppression threshold on the whole issue, not a listing
cap. -/
theorem sequence_gap_characterization (h : String) (data : List Row) :
    (checkSequence h data ≠ [] ↔
      (3 ≤ (seqParts h data).length ∧
        1 ≤ (specMissing (seqParts h data)).length ∧
        (specMissing (seqParts h data)).length ≤ 10)) ∧
    (∀ i ∈ checkSequence h data,
      i = { itype := .sequenceGap, severity := .needsReview, columnName := some h,
            missingNumbers := specMissing (seqParts h data) }) := by
  have hrw : checkSequence h data =
      if (seqParts h data).length < 3 then []
      else if (0 < (specMissing (seqParts h data)).length &&
          (specMissing (seqParts h data)).length ≤ 10 : Bool) then
        [{ itype := .sequenceGap, severity := .needsReview, columnName := some h,
           missingNumbers := specMissing (seqParts h data) }]
      else [] := by
    simp only [checkSequence]
    rw [gapsBetween_sortedDedup_eq]
  rw [hrw]
  by_cases h3 : (seqParts h data).length < 3
  · rw [if_pos h3]
    refine ⟨?_, by simp⟩
    simp only [ne_eq, not_true_eq_false, false_iff, not_and]
    intro hc
    omega
  · rw [if_neg h3]
    by_cases hg : (0 < (specMissing (seqParts h data)).length &&
        (specMissing (seqParts h data)).length ≤ 10 : Bool)
    · rw [if_pos hg]
      simp only [Bool.and_eq_true, decide_eq_true_eq] at hg
      refine ⟨?_, ?_⟩
      · simp only [ne_eq, List.cons_ne_nil, not_false_eq_true, true_iff]
        exact ⟨by omega, by omega, hg.2⟩
      · intro i hi
        simpa using hi
    · rw [if_neg hg]
      simp only [Bool.and_eq_true, decide_eq_true_eq, not_and] at hg
      refine ⟨?_, by simp⟩
      simp only [ne_eq, not_true_eq_false, false_iff, not_and]
      intro _h0 h1 h2
      exact absurd h2 (by omega)

/-- Claim C6, amended: an exception in a detection pass is not
isolated — `analyze` runs its passes with no handler, so the first
pass that throws propagates out: the passes after it never run and no
result (usable or otherwise) is returned. -/
theorem analysis_pass_error_propagates (pre post : List (Except String (List Issue)))
    (e : String) (hpre : ∀ p ∈ pre, ∃ iss, p = .ok iss) :
    analyzeSeq (pre ++ .error e :: post) = .error e := by
  induction pre with
  | nil => simp [analyzeSeq]
  | cons p t ih =>
    obtain ⟨iss, rfl⟩ := hpre p (List.mem_cons_self p t)
    rw [List.cons_append]
    show analyzeSeq (.ok iss :: (t ++ .error e :: post)) = .error e
    simp only [analyzeSeq]
    rw [ih (fun p hp => hpre p (List.mem_cons_of_mem _ hp))]

/-- Claim C7, amended: the two date-year rules differ.  `parseDate`
maps every in-range `DD/MM/YY` (or dashed) date to the 2000s —
`2000 + YY` even for `YY ≥ 50` — while `validateNIK` decodes the
birth-year field with the cutoff-at-50 rule (`YY < 50 → 2000s`,
otherwise `1900s`); the two functions do not share the rule. -/
theorem two_digit_year_parseDate_vs_nik :
    (∀ (s : String) (d m y : ℕ),
      matchISO (trimL s.data) = none →
      matchDMY4 (trimL s.data) = none →
      matchDMY2 (trimL s.data) = some (d, m, y) →
      1 ≤ m → m ≤ 12 → 1 ≤ d → (d : ℤ) ≤ monthLen (2000 + (y : ℤ)) m →
      parseDate (.str s) = some ⟨2000 + (y : ℤ), m, d⟩) ∧
    (∀ y : ℕ, y < 100 →
      (validateNIK (.str ("3201011505" ++ pad2 (y : ℤ) ++ "0001"))).parsed =
        some { province := "Jawa Barat", provinceCode := "32", regencyCode := "01",
               districtCode := "01",
               birthDate := "15/05/" ++ natRepr (if y < 50 then 2000 + y else 1900 + y),
               gender := "Male", sequence := "0001" }) := by
  constructor
  · intro s d m y h1 h2 h3 hm1 hm2 hd1 hd2
    simp only [parseDate, h1, h2, h3]
    rw [mkJsDate_valid (2000 + (y : ℤ)) m d (by exact_mod_cast hm1)
      (by exact_mod_cast hm2) (by exact_mod_cast hd1) hd2]
  · decide

/-- Claim C5, amended: for every issue list and non-empty table the
returned score satisfies `0 ≤ score ≤ 100`, and an empty issue list
yields score 100 with grade A; but the returned letter grade is mapped
by the fixed thresholds from the raw (unrounded, unclamped) running
score, not from the returned score, so grade and returned score can
disagree (see the counterexample). -/
theorem quality_score_bounds_and_raw_grade (dataLen : ℕ) (issues : List Issue)
    (hlen : 0 < dataLen) :
    0 ≤ (calculateQualityScore dataLen issues).score ∧
    (calculateQualityScore dataLen issues).score ≤ 100 ∧
    (issues = [] → calculateQualityScore dataLen issues =
      { score := 100, grade := "A", label := "Excellent" }) ∧
    (calculateQualityScore dataLen issues).grade =
      gradeOf (rawScore dataLen issues) := by
  refine ⟨le_max_left 0 _, ?_, ?_, rfl⟩
  · have h100 : rawScore dataLen issues ≤ 100 := rawScore_le_100 dataLen issues
    have hr : jsRound (rawScore dataLen issues) ≤ 100 := by
      rw [jsRound, jsFloor_eq_floor]
      have hlt : ⌊rawScore dataLen issues + 1 / 2⌋ < 101 := by
        rw [Int.floor_lt]
        push_cast
        linarith
      omega
    exact max_le (by norm_num) hr
  · intro h
    subst h
    have hraw : rawScore dataLen [] = 100 := rfl
    have hjr : jsRound (100 : ℚ) = 100 := by
      rw [jsRound, jsFloor_eq_floor]
      norm_num
    simp only [calculateQualityScore, hraw, hjr]
    norm_num [gradeOf, labelOf, max_def]

/-- Witness for C5 at `dataLen = 5`, `issues = []`. -/
theorem quality_score_bounds_and_raw_grade_witness :
    0 ≤ (calculateQualityScore 5 []).score ∧
    (calculateQualityScore 5 []).score ≤ 100 ∧
    (([] : List Issue) = [] → calculateQualityScore 5 [] =
      { score := 100, grade := "A", label := "Excellent" }) ∧
    (calculateQualityScore 5 []).grade = gradeOf (rawScore 5 []) :=
  quality_score_bounds_and_raw_grade 5 [] (by norm_num)

/-! Reference-store lemmas for the aliasing claim. -/

theorem storeGet_set_self (st : List Row) (i : ℕ) (r : Row) (hi : i < st.length) :
    storeGet (storeSet st i r) i = r := by
  simp [storeGet, storeSet, List.getD_eq_getElem?_getD, List.getElem?_set_self hi]

theorem storeGet_set_ne (st : List Row) (i j : ℕ) (r : Row) (hne : i ≠ j) :
    storeGet (storeSet st i r) j = storeGet st j := by
  simp [storeGet, storeSet, List.getD_eq_getElem?_getD, List.getElem?_set_ne hne]

theorem storeSet_length (st : List Row) (i : ℕ) (r : Row) :
    (storeSet st i r).length = st.length := List.length_set st i r

theorem applyRowFixRef_cons (f : Row → Row) (st : List Row) (i : ℕ) (t : List ℕ) :
    applyRowFixRef f st (i :: t) =
      applyRowFixRef f (storeSet st i (f (storeGet st i))) t := rfl

theorem applyRowFixRef_length (f : Row → Row) :
    ∀ (ids : List ℕ) (st : List Row), (applyRowFixRef f st ids).length = st.length
  | [], _ => rfl
  | i :: t, st => by
    rw [applyRowFixRef_cons, applyRowFixRef_length f t, storeSet_length]

theorem applyRowFixRef_not_mem (f : Row → Row) :
    ∀ (ids : List ℕ) (st : List Row) (j : ℕ), j ∉ ids →
      storeGet (applyRowFixRef f st ids) j = storeGet st j
  | [], _, _, _ => rfl
  | i :: t, st, j, hj => by
    rw [applyRowFixRef_cons,
      applyRowFixRef_not_mem f t _ j (fun h => hj (List.mem_cons_of_mem _ h)),
      storeGet_set_ne st i j (f (storeGet st i))
        (fun he => hj (by rw [← he]; exact List.mem_cons_self i t))]

theorem applyRowFixRef_mem (f : Row → Row) :
    ∀ (ids : List ℕ) (st : List Row) (i : ℕ), ids.Nodup → i ∈ ids → i < st.length →
      storeGet (applyRowFixRef f st ids) i = f (storeGet st i)
  | [], _, _, _, hi, _ => absurd hi (List.not_mem_nil _)
  | j :: t, st, i, hnd, hi, hlen => by
    rw [applyRowFixRef_cons]
    rcases List.mem_cons.1 hi with rfl | hit
    · rw [applyRowFixRef_not_mem f t _ i (List.nodup_cons.1 hnd).1,
        storeGet_set_self st i _ hlen]
    · have hne : j ≠ i := fun he => (List.nodup_cons.1 hnd).1 (he ▸ hit)
      rw [applyRowFixRef_mem f t _ i (List.nodup_cons.1 hnd).2 hit
          (by rw [storeSet_length]; exact hlen),
        storeGet_set_ne st j i (f (storeGet st j)) hne]

theorem foldlFix_not_mem (ids2 : List ℕ) (j : ℕ) (hj : j ∉ ids2) :
    ∀ (fs : List (Row → Row)) (st : List Row),
      storeGet (fs.foldl (fun s f => applyRowFixRef f s ids2) st) j = storeGet st j
  | [], _ => rfl
  | f :: t, st => by
    rw [List.foldl_cons, foldlFix_not_mem ids2 j hj t _,
      applyRowFixRef_not_mem f ids2 st j hj]

theorem storeGet_append_left (st ext : List Row) (j : ℕ) (hj : j < st.length) :
    storeGet (st ++ ext) j = storeGet st j := by
  simp [storeGet, List.getD_eq_getElem?_getD, List.getElem?_append_left hj]

theorem rdRefGo_sublist (headers : List String) (st : List Row) :
    ∀ (seen : List String) (ids : List ℕ), (rdRefGo headers st seen ids).Sublist ids
  | _, [] => List.Sublist.refl []
  | seen, i :: t => by
    simp only [rdRefGo]
    split
    · exact (rdRefGo_sublist headers st seen t).trans (List.sublist_cons_self i t)
    · exact List.Sublist.cons₂ i (rdRefGo_sublist headers st _ t)

theorem reRef_sublist (headers : List String) (st : List Row) (ids : List ℕ) :
    (reRef headers st ids).Sublist ids := List.filter_sublist ids

theorem cleanRefIds_sublist (headers : List String) (st1 : List Row) (base len : ℕ)
    (analysis : AnalysisResult) :
    (cleanRefIds headers st1 base len analysis).Sublist (List.range' base len) := by
  simp only [cleanRefIds]
  split
  · refine (reRef_sublist headers st1 _).trans ?_
    split
    · exact rdRefGo_sublist headers st1 [] _
    · exact List.Sublist.refl _
  · split
    · exact rdRefGo_sublist headers st1 [] _
    · exact List.Sublist.refl _

theorem cleanRefIds_ge (headers : List String) (st1 : List Row) (base len : ℕ)
    (analysis : AnalysisResult) :
    ∀ x ∈ cleanRefIds headers st1 base len analysis, base ≤ x := fun x hx =>
  (List.mem_range'_1.1
    ((cleanRefIds_sublist headers st1 base len analysis).subset hx)).1

/-- Claim C10: input-mutation asymmetry.  `clean` writes only through
the deep-cloned references (store cells below the original length are
untouched), while `basicClean` copies only the id array: every
reference surviving its removal steps has the caller's original row
object overwritten in place by the whitespace fix. -/
theorem clean_preserves_input_basicClean_mutates :
    (∀ (headers : List String) (st : List Row) (ids : List ℕ)
       (analysis : AnalysisResult) (ct : CTypes) (opts : COptions) (j : ℕ),
       j < st.length →
       storeGet (cleanRef headers st ids analysis ct opts).1 j = storeGet st j) ∧
    (∀ (headers : List String) (st : List Row) (ids : List ℕ),
       ids.Nodup → (∀ i ∈ ids, i < st.length) →
       ∀ i ∈ (basicCleanRef headers st ids).2,
         storeGet (basicCleanRef headers st ids).1 i =
           fixWsRow headers (storeGet st i)) := by
  constructor
  · intro headers st ids analysis ct opts j hj
    have hnot : j ∉ cleanRefIds headers (st ++ ids.map (storeGet st))
        st.length ids.length analysis :=
      fun hm => absurd (cleanRefIds_ge headers _ st.length ids.length analysis j hm)
        (by omega)
    have h1 : (cleanRef headers st ids analysis ct opts).1 =
        (cleanRowFixes headers analysis ct opts).foldl
          (fun s f => applyRowFixRef f s
            (cleanRefIds headers (st ++ ids.map (storeGet st))
              st.length ids.length analysis))
          (st ++ ids.map (storeGet st)) := rfl
    rw [h1, foldlFix_not_mem _ j hnot _ _, storeGet_append_left st _ j hj]
  · intro headers st ids hnd hlt i hi
    have hsub1 := rdRefGo_sublist headers st [] ids
    have hsub2 := reRef_sublist headers st (rdRefGo headers st [] ids)
    have h2 : (basicCleanRef headers st ids).2 =
        reRef headers st (rdRefGo headers st [] ids) := rfl
    have h1 : (basicCleanRef headers st ids).1 =
        applyRowFixRef (fixWsRow headers) st
          (reRef headers st (rdRefGo headers st [] ids)) := rfl
    rw [h2] at hi
    rw [h1]
    exact applyRowFixRef_mem (fixWsRow headers) _ st i
      ((hsub2.trans hsub1).nodup hnd) hi (hlt i ((hsub2.trans hsub1).subset hi))

/-- Witness for C10 on a one-row store holding the string cell
" a  b ". -/
theorem clean_preserves_input_basicClean_mutates_witness :
    storeGet (cleanRef ["Name"] [⟨0, [("Name", Value.str " a  b ")]⟩] [0]
        ⟨true, [], [], [], [], none⟩ [] {}).1 0 =
      storeGet [⟨0, [("Name", Value.str " a  b ")]⟩] 0 ∧
    storeGet (basicCleanRef ["Name"] [⟨0, [("Name", Value.str " a  b ")]⟩] [0]).1 0 =
      fixWsRow ["Name"] (storeGet [⟨0, [("Name", Value.str " a  b ")]⟩] 0) :=
  ⟨clean_preserves_input_basicClean_mutates.1 ["Name"]
      [⟨0, [("Name", Value.str " a  b ")]⟩] [0] ⟨true, [], [], [], [], none⟩ [] {} 0
      (by decide),
   clean_preserves_input_basicClean_mutates.2 ["Name"]
      [⟨0, [("Name", Value.str " a  b ")]⟩] [0] (by decide) (by decide) 0 (by decide)⟩

/-! # Concrete scenarios

Rational arithmetic must reduce inside the kernel for `decide` to
evaluate the pipeline, so the `Rat` operations are made semireducible
locally. -/

section ConcreteEval

attribute [local semireducible] Rat.mul Rat.add Rat.sub Rat.inv Rat.ofScientific

/-- Claim C1: on headers `[Qty, Price, Total]` with the single row
`{Qty:"10", Price:"50000", Total:"400000"}`, the Logic pass emits
exactly one AUTO_FIX `CALCULATION_ERROR` issue whose `fixInfo` names
the three columns, and cleaning with that analysis stores
`Total = 500000`. -/
theorem logic_pass_calc_scenario :
    analyzeLogic ["Qty", "Price", "Total"]
        [⟨2, [("Qty", Value.str "10"), ("Price", Value.str "50000"),
              ("Total", Value.str "400000")]⟩] =
      [{ itype := .calculationError, severity := .autoFix, affectedRows := some 1,
         autoFix := true, fixInfo := some (.calc "Qty" "Price" "Total") }] ∧
    (clean ["Qty", "Price", "Total"]
        [⟨2, [("Qty", Value.str "10"), ("Price", Value.str "50000"),
              ("Total", Value.str "400000")]⟩]
        (analyze analysisNow ["Qty", "Price", "Total"]
          [⟨2, [("Qty", Value.str "10"), ("Price", Value.str "50000"),
                ("Total", Value.str "400000")]⟩] [])
        [] {}).data =
      [⟨2, [("Qty", Value.str "10"), ("Price", Value.str "50000"),
            ("Total", Value.num 500000)]⟩] := by decide

/-- Claim C8: `parseNumber` reads `1.234.567,89` (Indonesian),
`1,234,567.89` (US) and `12,5` (bare decimal comma) as the expected
values. -/
theorem parse_number_locale_disambiguation :
    parseNumber (Value.str "1.234.567,89") = some (1234567.89 : ℚ) ∧
    parseNumber (Value.str "1,234,567.89") = some (1234567.89 : ℚ) ∧
    parseNumber (Value.str "12,5") = some (12.5 : ℚ) := by decide

/-- Counterexample to C2 as stated: a stored total that is off by only
0.5 is left in place by the repair, so after cleaning the total parses
to 500000.5, not to qty·price = 500000 exactly. -/
theorem calc_repair_not_exact_counterexample :
    ((fixCalculationsC
        [⟨2, [("Qty", Value.str "10"), ("Price", Value.str "50000"),
              ("Total", Value.str "400000")]⟩,
         ⟨3, [("Qty", Value.str "10"), ("Price", Value.str "50000"),
              ("Total", Value.str "500000.5")]⟩]
        "Qty" "Price" "Total" {}).1.map (fun r => r.get "Total")) =
      [some (Value.num 500000), some (Value.str "500000.5")] ∧
    parseNumberOpt (some (Value.str "500000.5")) = some (500000.5 : ℚ) ∧
    (500000.5 : ℚ) ≠ 10 * 50000 := by decide

/-- Counterexample to C3 as stated: cleaning `Rp5000` in a currency
column yields `Rp 5.000`, and a second clean of that output makes one
further change — it re-reads `Rp 5.000` as the number 5 (US decimal
point!) and stores `Rp 5`, so a single pass is not a fixed point and
the second pass corrupts the value. -/
theorem clean_not_idempotent_counterexample :
    (clean ["Harga"] [⟨2, [("Harga", Value.str "Rp5000")]⟩]
        (analyze analysisNow ["Harga"] [⟨2, [("Harga", Value.str "Rp5000")]⟩]
          [("Harga", CType.currency)])
        [("Harga", CType.currency)] {}).data =
      [⟨2, [("Harga", Value.str "Rp 5.000")]⟩] ∧
    (clean ["Harga"] [⟨2, [("Harga", Value.str "Rp 5.000")]⟩]
        (analyze analysisNow ["Harga"] [⟨2, [("Harga", Value.str "Rp 5.000")]⟩]
          [("Harga", CType.currency)])
        [("Harga", CType.currency)] {}).stats.totalChanges = 1 ∧
    (clean ["Harga"] [⟨2, [("Harga", Value.str "Rp 5.000")]⟩]
        (analyze analysisNow ["Harga"] [⟨2, [("Harga", Value.str "Rp 5.000")]⟩]
          [("Harga", CType.currency)])
        [("Harga", CType.currency)] {}).data =
      [⟨2, [("Harga", Value.str "Rp 5")]⟩] := by decide

/-- Counterexample to C4 as stated: `a  b` and `a b` have different
dedupe keys (inner whitespace is not collapsed by the key), dedupe
runs before the whitespace fix, and the fix then maps both rows to the
identical cell tuple `a b` — the cleaned output holds two rows whose
normalised cell tuples coincide. -/
theorem clean_output_duplicate_rows_counterexample :
    (clean ["Name"]
        [⟨2, [("Name", Value.str "a  b")]⟩, ⟨3, [("Name", Value.str "a b")]⟩]
        (analyze analysisNow ["Name"]
          [⟨2, [("Name", Value.str "a  b")]⟩, ⟨3, [("Name", Value.str "a b")]⟩]
          [("Name", CType.string)])
        [("Name", CType.string)] {}).data.map Row.cells =
      [[("Name", Value.str "a b")], [("Name", Value.str "a b")]] := by decide

/-- Counterexample to C5 as stated: one critical issue affecting 21 of
400 rows gives raw score 89.5; the returned score rounds to 90 but the
returned grade is computed from 89.5 and is "B", while the fixed
thresholds map the returned score 90 to "A". -/
theorem quality_grade_mismatch_counterexample :
    calculateQualityScore 400
        [{ itype := .nikInvalid, severity := .critical, affectedRows := some 21 }] =
      { score := 90, grade := "B", label := "Good" } ∧
    gradeOf (90 : ℚ) = "A" := by decide

/-- Counterexample to C6 as stated: with the passes run in sequence
and no handler, a throwing second pass aborts the whole analysis — the
result is the propagated exception, not a usable partial result. -/
theorem analysis_pass_throw_counterexample :
    analyzeSeq [.ok [], .error "TypeError: x is not a function", .ok []] =
      .error "TypeError: x is not a function" := rfl

/-- Counterexample to C7 as stated: `parseDate` maps `15/05/99` to the
year 2099 (no cutoff at 50), while `validateNIK` decodes the same
two-digit year 99 in a birth-date field to 1999. -/
theorem two_digit_year_counterexample :
    (parseDate (Value.str "15/05/99")).map JsDate.year = some 2099 ∧
    (validateNIK (Value.str "3201011505990001")).parsed =
      some { province := "Jawa Barat", provinceCode := "32", regencyCode := "01",
             districtCode := "01", birthDate := "15/05/1999", gender := "Male",
             sequence := "0001" } := by decide

/-- Counterexample to C9 as stated: an identifier column with values
1, 13, 14 has a gap of 11 missing integers, which is more than 10 —
the Logic pass reports nothing at all instead of a capped issue. -/
theorem sequence_gap_suppressed_counterexample :
    analyzeLogic ["ID"]
        [⟨2, [("ID", Value.str "1")]⟩, ⟨3, [("ID", Value.str "13")]⟩,
         ⟨4, [("ID", Value.str "14")]⟩] = [] ∧
    (specMissing (seqParts "ID"
        [⟨2, [("ID", Value.str "1")]⟩, ⟨3, [("ID", Value.str "13")]⟩,
         ⟨4, [("ID", Value.str "14")]⟩])).length = 11 := by decide

/-- Witness for C2 on the one-row table with total 400000: the
repaired row's total parses and lies within one unit of qty·price. -/
theorem calc_repair_within_one_unit_witness :
    ∃ t, parseNumberOpt
        (Row.get ⟨2, [("Qty", Value.str "10"), ("Price", Value.str "50000"),
                      ("Total", Value.num 500000)]⟩ "Total") = some t ∧
      jsAbs (10 * 50000 - t) ≤ 1 :=
  calc_repair_within_one_unit
    [⟨2, [("Qty", Value.str "10"), ("Price", Value.str "50000"),
          ("Total", Value.str "400000")]⟩]
    "Qty" "Price" "Total" {} (by decide) (by decide)
    ⟨2, [("Qty", Value.str "10"), ("Price", Value.str "50000"),
         ("Total", Value.num 500000)]⟩
    (by decide) 10 50000 (by decide) (by decide)

/-- Witness for C3: the calculation repair run twice on the one-row
table equals the repair run once. -/
theorem fix_calculations_idempotent_witness :
    (fixCalculationsC
        (fixCalculationsC
          [⟨2, [("Qty", Value.str "10"), ("Price", Value.str "50000"),
                ("Total", Value.str "400000")]⟩]
          "Qty" "Price" "Total" {}).1
        "Qty" "Price" "Total" {}).1 =
      (fixCalculationsC
        [⟨2, [("Qty", Value.str "10"), ("Price", Value.str "50000"),
              ("Total", Value.str "400000")]⟩]
        "Qty" "Price" "Total" {}).1 :=
  fix_calculations_idempotent
    [⟨2, [("Qty", Value.str "10"), ("Price", Value.str "50000"),
          ("Total", Value.str "400000")]⟩]
    "Qty" "Price" "Total" {} {} (by decide) (by decide)

/-- Witness for C6: an error in the middle of an all-ok pass list
propagates. -/
theorem analysis_pass_error_propagates_witness :
    analyzeSeq [.ok [], .error "boom", .ok []] = .error "boom" :=
  analysis_pass_error_propagates [.ok []] [.ok []] "boom"
    (fun p hp => ⟨[], List.mem_singleton.mp hp⟩)

/-- Witness for C7: `15/05/07` parses to 2007-05-15 via the first
part, and the NIK birth-year 99 decodes to 1999 via the second. -/
theorem two_digit_year_parseDate_vs_nik_witness :
    parseDate (Value.str "15/05/07") = some ⟨2007, 5, 15⟩ ∧
    (validateNIK (Value.str ("3201011505" ++ pad2 (99 : ℤ) ++ "0001"))).parsed =
      some { province := "Jawa Barat", provinceCode := "32", regencyCode := "01",
             districtCode := "01",
             birthDate := "15/05/" ++
               natRepr (if (99 : ℕ) < 50 then 2000 + 99 else 1900 + 99),
             gender := "Male", sequence := "0001" } :=
  ⟨two_digit_year_parseDate_vs_nik.1 "15/05/07" 15 5 7 (by decide) (by decide)
      (by decide) (by decide) (by decide) (by decide) (by decide),
   two_digit_year_parseDate_vs_nik.2 99 (by decide)⟩

/-- Witness for C9: on an id column with values 1, 5, 6 the emitted
issue is exactly the characterised `SEQUENCE_GAP` issue listing the
missing integers 2, 3, 4. -/
theorem sequence_gap_characterization_witness :
    ({ itype := .sequenceGap, severity := .needsReview, columnName := some "No",
       missingNumbers := [2, 3, 4] } : Issue) =
      { itype := .sequenceGap, severity := .needsReview, columnName := some "No",
        missingNumbers := specMissing (seqParts "No"
          [⟨2, [("No", Value.str "1")]⟩, ⟨3, [("No", Value.str "5")]⟩,
           ⟨4, [("No", Value.str "6")]⟩]) } :=
  (sequence_gap_characterization "No"
      [⟨2, [("No", Value.str "1")]⟩, ⟨3, [("No", Value.str "5")]⟩,
       ⟨4, [("No", Value.str "6")]⟩]).2
    { itype := .sequenceGap, severity := .needsReview, columnName := some "No",
      missingNumbers := [2, 3, 4] }
    (by decide)

end ConcreteEval

end BotExcel
